import Mathlib

/-! A shallow embedding of the GraphBLAS storage-engine core sampled here:
the conform policy engine (Source/GB_conform.c), the work-balanced vector
slicer (Source/GB_slice_vector.c), the generated max-rminus-int64 semiring
kernel contracts (Source/Generated/GB_AxB__max_rminus_int64.c), and two
binding-layer utilities (gb_mxstring_to_format.c, gbburble.c).
Helper routines whose bodies are not part of the sampled source (the format
converters, the density tests, GB_conform_hyper, GB_is_dense, and the
binary split search) are modelled from the specification, as marked in
their doc comments. -/

/-- The four storage formats of a GraphBLAS matrix. -/
inductive GBFormat
  | hyper
  | sparse
  | bitmap
  | full
deriving DecidableEq

/-- The state of a matrix as seen by the conform policy engine: the current
format, the per-matrix sparsity-control bitmask, the dimensions, the stored
entry count, the number of non-empty vectors, the pending-work counters and
flag, the two density switches, and the multiset of live entries. -/
structure GBMatrix where
  format : GBFormat
  sparsity : ℕ
  vlen : ℕ
  vdim : ℕ
  nnz : ℕ
  nvec : ℕ
  nzombies : ℕ
  jumbled : Bool
  n_pending : ℕ
  hyper_switch : ℚ
  bitmap_switch : ℚ
  entries : Multiset (ℕ × ℕ × ℤ)
deriving DecidableEq

/-- Sparsity-control flag for the hypersparse format. -/
def GxB_HYPERSPARSE : ℕ := 1

/-- Sparsity-control flag for the sparse format. -/
def GxB_SPARSE : ℕ := 2

/-- Sparsity-control flag for the bitmap format. -/
def GxB_BITMAP : ℕ := 4

/-- Sparsity-control flag for the full format. -/
def GxB_FULL : ℕ := 8

/-- The distinguished AUTO sparsity control: all four formats allowed. -/
def GxB_AUTO_SPARSITY : ℕ := 15

/-- The single-bit flag attached to each format. -/
def GBFormat.flag : GBFormat → ℕ
  | .hyper => GxB_HYPERSPARSE
  | .sparse => GxB_SPARSE
  | .bitmap => GxB_BITMAP
  | .full => GxB_FULL

/-- A format lies in a sparsity-control bitmask when its flag bit is set. -/
def formatIn (f : GBFormat) (s : ℕ) : Prop := f.flag &&& s ≠ 0

instance (f : GBFormat) (s : ℕ) : Decidable (formatIn f s) := by
  unfold formatIn; infer_instance

/-- A rational times its own denominator is its numerator. -/
lemma rat_mul_den (b : ℚ) : b * (b.den : ℚ) = (b.num : ℚ) := by
  have hd : ((b.den : ℚ)) ≠ 0 := Nat.cast_ne_zero.mpr b.den_nz
  nth_rewrite 1 [← Rat.num_div_den b]
  exact div_mul_cancel₀ _ hd

/-- Cross-multiplied form of a rational inequality against integers; it
gives the density tests a decision procedure free of rational division. -/
lemma rat_mul_le_int (b : ℚ) (x y : ℤ) :
    b * (x : ℚ) ≤ (y : ℚ) ↔ b.num * x ≤ y * (b.den : ℤ) := by
  have hd : (0 : ℚ) < (b.den : ℚ) := by exact_mod_cast b.pos
  rw [← mul_le_mul_right hd]
  have h2 : b * (x : ℚ) * (b.den : ℚ) = ((b.num * x : ℤ) : ℚ) := by
    rw [mul_right_comm, rat_mul_den]
    push_cast
    ring
  rw [h2]
  exact_mod_cast Iff.rfl

/-- Strict counterpart of rat_mul_le_int. -/
lemma int_lt_rat_mul (b : ℚ) (x y : ℤ) :
    (y : ℚ) < b * (x : ℚ) ↔ y * (b.den : ℤ) < b.num * x := by
  have h := rat_mul_le_int b x y
  constructor
  · intro hlt
    by_contra hc
    exact absurd (h.mpr (by omega)) (not_le.mpr hlt)
  · intro hlt
    by_contra hc
    exact absurd (h.mp (not_lt.mp hc)) (by omega)

/-- Modelled from the spec (§4.2; the body of
GB_convert_sparse_to_bitmap_test is not part of the sampled source):
the sparse-to-bitmap density test, nnz ≥ bitmap_switch · vlen · vdim. -/
def GB_convert_sparse_to_bitmap_test (b : ℚ) (nnz vlen vdim : ℕ) : Prop :=
  b * (vlen : ℚ) * (vdim : ℚ) ≤ (nnz : ℚ)

instance (b : ℚ) (nnz vlen vdim : ℕ) :
    Decidable (GB_convert_sparse_to_bitmap_test b nnz vlen vdim) :=
  decidable_of_iff (b.num * ((vlen : ℤ) * (vdim : ℤ)) ≤ (nnz : ℤ) * (b.den : ℤ)) (by
    unfold GB_convert_sparse_to_bitmap_test
    rw [show (b * (vlen : ℚ) * (vdim : ℚ)) = b * (((vlen : ℤ) * (vdim : ℤ) : ℤ) : ℚ) by
      push_cast; ring]
    rw [show ((nnz : ℚ)) = (((nnz : ℤ) : ℤ) : ℚ) by push_cast; ring]
    exact (rat_mul_le_int b _ _).symm)

/-- Modelled from the spec (§4.2; the body of
GB_convert_bitmap_to_sparse_test is not part of the sampled source):
the bitmap-to-sparse density test, nnz < bitmap_switch · vlen · vdim
(strict, hysteresis-free). -/
def GB_convert_bitmap_to_sparse_test (b : ℚ) (nnz vlen vdim : ℕ) : Prop :=
  (nnz : ℚ) < b * (vlen : ℚ) * (vdim : ℚ)

instance (b : ℚ) (nnz vlen vdim : ℕ) :
    Decidable (GB_convert_bitmap_to_sparse_test b nnz vlen vdim) :=
  decidable_of_iff ((nnz : ℤ) * (b.den : ℤ) < b.num * ((vlen : ℤ) * (vdim : ℤ))) (by
    unfold GB_convert_bitmap_to_sparse_test
    rw [show (b * (vlen : ℚ) * (vdim : ℚ)) = b * (((vlen : ℤ) * (vdim : ℤ) : ℤ) : ℚ) by
      push_cast; ring]
    rw [show ((nnz : ℚ)) = (((nnz : ℤ) : ℤ) : ℚ) by push_cast; ring]
    exact (int_lt_rat_mul b _ _).symm)

/-- Modelled from the spec (§4.2; the body of the hyper-to-sparse test is
not part of the sampled source): nvec ≥ hyper_switch · vdim. -/
def GB_convert_hyper_to_sparse_test (h : ℚ) (nvec vdim : ℕ) : Prop :=
  h * (vdim : ℚ) ≤ (nvec : ℚ)

instance (h : ℚ) (nvec vdim : ℕ) :
    Decidable (GB_convert_hyper_to_sparse_test h nvec vdim) :=
  decidable_of_iff (h.num * (vdim : ℤ) ≤ (nvec : ℤ) * (h.den : ℤ)) (by
    unfold GB_convert_hyper_to_sparse_test
    rw [show ((vdim : ℚ)) = (((vdim : ℤ) : ℤ) : ℚ) by push_cast; ring]
    rw [show ((nvec : ℚ)) = (((nvec : ℤ) : ℤ) : ℚ) by push_cast; ring]
    exact (rat_mul_le_int h _ _).symm)

/-- Modelled from the spec (§4.2; the body of the sparse-to-hyper test is
not part of the sampled source): nvec < hyper_switch · vdim (strict). -/
def GB_convert_sparse_to_hyper_test (h : ℚ) (nvec vdim : ℕ) : Prop :=
  (nvec : ℚ) < h * (vdim : ℚ)

instance (h : ℚ) (nvec vdim : ℕ) :
    Decidable (GB_convert_sparse_to_hyper_test h nvec vdim) :=
  decidable_of_iff ((nvec : ℤ) * (h.den : ℤ) < h.num * (vdim : ℤ)) (by
    unfold GB_convert_sparse_to_hyper_test
    rw [show ((vdim : ℚ)) = (((vdim : ℤ) : ℤ) : ℚ) by push_cast; ring]
    rw [show ((nvec : ℚ)) = (((nvec : ℤ) : ℤ) : ℚ) by push_cast; ring]
    exact (int_lt_rat_mul h _ _).symm)

/-- Modelled from the spec (§4.3; the body of GB_is_dense is not part of
the sampled source): every cell is live, nnz = vlen · vdim. -/
def GB_is_dense (A : GBMatrix) : Prop := A.nnz = A.vlen * A.vdim

instance (A : GBMatrix) : Decidable (GB_is_dense A) := by
  unfold GB_is_dense; infer_instance

/-- GB_conform.c lines 140-141: the matrix is already full, or it is dense
with no zombies, not jumbled, and with no pending tuples. -/
def is_full_or_dense_with_no_pending_work (A : GBMatrix) : Prop :=
  A.format = .full ∨
    (GB_is_dense A ∧ A.nzombies = 0 ∧ A.jumbled = false ∧ A.n_pending = 0)

instance (A : GBMatrix) : Decidable (is_full_or_dense_with_no_pending_work A) := by
  unfold is_full_or_dense_with_no_pending_work; infer_instance

/-- Modelled from the spec (§4.2; the body of GB_convert_any_to_bitmap is
not part of the sampled source): accept any format, finish pending work,
preserve the multiset of live entries, and land in bitmap format. -/
def GB_convert_any_to_bitmap (A : GBMatrix) : GBMatrix :=
  { A with format := .bitmap, nzombies := 0, jumbled := false, n_pending := 0,
           nnz := A.entries.card }

/-- Modelled from the spec (§4.2; the body of GB_convert_any_to_full is
not part of the sampled source). -/
def GB_convert_any_to_full (A : GBMatrix) : GBMatrix :=
  { A with format := .full, nzombies := 0, jumbled := false, n_pending := 0,
           nnz := A.entries.card }

/-- Modelled from the spec (§4.2; the body of GB_convert_any_to_sparse is
not part of the sampled source). -/
def GB_convert_any_to_sparse (A : GBMatrix) : GBMatrix :=
  { A with format := .sparse, nzombies := 0, jumbled := false, n_pending := 0,
           nnz := A.entries.card }

/-- Modelled from the spec (§4.2; the body of GB_convert_any_to_hyper is
not part of the sampled source). -/
def GB_convert_any_to_hyper (A : GBMatrix) : GBMatrix :=
  { A with format := .hyper, nzombies := 0, jumbled := false, n_pending := 0,
           nnz := A.entries.card }

/-- Modelled from the spec (§4.2; the body of GB_convert_bitmap_to_sparse
is not part of the sampled source): a bitmap matrix is always clean, so
only the format changes. -/
def GB_convert_bitmap_to_sparse (A : GBMatrix) : GBMatrix :=
  { A with format := .sparse }

/-- Modelled from the spec (§4.2; the body of GB_conform_hyper is not part
of the sampled source): apply only the hyper-to-sparse test
(nvec ≥ hyper_switch · vdim) and the sparse-to-hyper test
(nvec < hyper_switch · vdim); never change to bitmap or full; the
hyper and sparse conversions preserve the live entries. -/
def GB_conform_hyper (A : GBMatrix) : GBMatrix :=
  if A.format = .hyper ∧ GB_convert_hyper_to_sparse_test A.hyper_switch A.nvec A.vdim then
    { A with format := .sparse }
  else if A.format = .sparse ∧ GB_convert_sparse_to_hyper_test A.hyper_switch A.nvec A.vdim then
    { A with format := .hyper }
  else A

/-- GB_conform.c lines 27-49 (GB_hyper_or_bitmap): ensure a matrix is
either hypersparse or bitmap.  The format flags the source receives are
computed from the matrix itself at every call site. -/
def GB_hyper_or_bitmap (A : GBMatrix) : GBMatrix :=
  if A.format = .full ∨ ((A.format = .hyper ∨ A.format = .sparse) ∧
      GB_convert_sparse_to_bitmap_test A.bitmap_switch A.nnz A.vlen A.vdim) then
    GB_convert_any_to_bitmap A
  else if A.format = .sparse ∨ (A.format = .bitmap ∧
      GB_convert_bitmap_to_sparse_test A.bitmap_switch A.nnz A.vlen A.vdim) then
    GB_convert_any_to_hyper A
  else A

/-- GB_conform.c lines 55-77 (GB_sparse_or_bitmap): ensure a matrix is
either sparse or bitmap. -/
def GB_sparse_or_bitmap (A : GBMatrix) : GBMatrix :=
  if A.format = .full ∨ ((A.format = .hyper ∨ A.format = .sparse) ∧
      GB_convert_sparse_to_bitmap_test A.bitmap_switch A.nnz A.vlen A.vdim) then
    GB_convert_any_to_bitmap A
  else if A.format = .hyper ∨ (A.format = .bitmap ∧
      GB_convert_bitmap_to_sparse_test A.bitmap_switch A.nnz A.vlen A.vdim) then
    GB_convert_any_to_sparse A
  else A

/-- GB_conform.c lines 83-114 (GB_hyper_sparse_or_bitmap): ensure a matrix
is hypersparse, sparse, or bitmap. -/
def GB_hyper_sparse_or_bitmap (A : GBMatrix) : GBMatrix :=
  if A.format = .full ∨ ((A.format = .hyper ∨ A.format = .sparse) ∧
      GB_convert_sparse_to_bitmap_test A.bitmap_switch A.nnz A.vlen A.vdim) then
    GB_convert_any_to_bitmap A
  else if A.format = .bitmap then
    if GB_convert_bitmap_to_sparse_test A.bitmap_switch A.nnz A.vlen A.vdim then
      GB_conform_hyper (GB_convert_bitmap_to_sparse A)
    else
      A
  else
    GB_conform_hyper A

/-- The switch of GB_conform (GB_conform.c lines 147-362) as a function of
the sparsity-control value: the fourteen explicit cases, then the shared
GxB_AUTO_SPARSITY and default case. -/
def GB_conform_dispatch (s : ℕ) (A : GBMatrix) : GBMatrix :=
  if s = GxB_HYPERSPARSE then
    GB_convert_any_to_hyper A
  else if s = GxB_SPARSE then
    GB_convert_any_to_sparse A
  else if s = GxB_HYPERSPARSE + GxB_SPARSE then
    GB_conform_hyper
      (if A.format = .full ∨ A.format = .bitmap then GB_convert_any_to_sparse A else A)
  else if s = GxB_BITMAP then
    GB_convert_any_to_bitmap A
  else if s = GxB_HYPERSPARSE + GxB_BITMAP then
    GB_hyper_or_bitmap A
  else if s = GxB_SPARSE + GxB_BITMAP then
    GB_sparse_or_bitmap A
  else if s = GxB_HYPERSPARSE + GxB_SPARSE + GxB_BITMAP then
    GB_hyper_sparse_or_bitmap A
  else if s = GxB_FULL ∨ s = GxB_FULL + GxB_BITMAP then
    if is_full_or_dense_with_no_pending_work A then GB_convert_any_to_full A
    else GB_convert_any_to_bitmap A
  else if s = GxB_HYPERSPARSE + GxB_FULL then
    if is_full_or_dense_with_no_pending_work A then GB_convert_any_to_full A
    else GB_convert_any_to_hyper A
  else if s = GxB_SPARSE + GxB_FULL then
    if is_full_or_dense_with_no_pending_work A then GB_convert_any_to_full A
    else GB_convert_any_to_sparse A
  else if s = GxB_HYPERSPARSE + GxB_SPARSE + GxB_FULL then
    if is_full_or_dense_with_no_pending_work A then GB_convert_any_to_full A
    else if A.format = .bitmap then GB_conform_hyper (GB_convert_bitmap_to_sparse A)
    else GB_conform_hyper A
  else if s = GxB_HYPERSPARSE + GxB_BITMAP + GxB_FULL then
    if is_full_or_dense_with_no_pending_work A then GB_convert_any_to_full A
    else GB_hyper_or_bitmap A
  else if s = GxB_SPARSE + GxB_BITMAP + GxB_FULL then
    if is_full_or_dense_with_no_pending_work A then GB_convert_any_to_full A
    else GB_sparse_or_bitmap A
  else
    if is_full_or_dense_with_no_pending_work A then GB_convert_any_to_full A
    else GB_hyper_sparse_or_bitmap A

/-- GB_conform (GB_conform.c lines 120-370): conform a matrix to its
desired sparsity structure.  In the model the conversions always succeed,
so GB_conform is a total function on matrix states. -/
def GB_conform (A : GBMatrix) : GBMatrix := GB_conform_dispatch A.sparsity A

/-- A concrete sparse matrix whose policy is the single format FULL:
2 × 2 with one live entry and no pending work. -/
def examplePolicyFull : GBMatrix :=
  { format := .sparse, sparsity := 8, vlen := 2, vdim := 2, nnz := 1, nvec := 1,
    nzombies := 0, jumbled := false, n_pending := 0,
    hyper_switch := 1, bitmap_switch := 1, entries := {(0, 0, 1)} }

/-- A concrete sparse matrix with policy {hyper, sparse}. -/
def examplePolicyHS : GBMatrix :=
  { format := .bitmap, sparsity := 3, vlen := 3, vdim := 3, nnz := 2, nvec := 2,
    nzombies := 0, jumbled := false, n_pending := 0,
    hyper_switch := 1, bitmap_switch := 1, entries := {(0, 0, 5), (2, 1, 7)} }

/-- A concrete sparse matrix with policy {hyper, bitmap} and few entries. -/
def examplePolicyHB : GBMatrix :=
  { format := .sparse, sparsity := 5, vlen := 4, vdim := 4, nnz := 3, nvec := 2,
    nzombies := 0, jumbled := false, n_pending := 0,
    hyper_switch := 1, bitmap_switch := 1, entries := {(0, 0, 1), (1, 0, 2), (3, 2, 4)} }

/-- A concrete 10 × 10 sparse matrix under AUTO with every cell set and no
pending work (scenario S3; the entry multiset is not needed to decide the
format, so it is left empty here). -/
def exampleAutoDense : GBMatrix :=
  { format := .sparse, sparsity := 15, vlen := 10, vdim := 10, nnz := 100, nvec := 10,
    nzombies := 0, jumbled := false, n_pending := 0,
    hyper_switch := 1, bitmap_switch := 1, entries := 0 }

/-- A concrete matrix whose sparsity-control value is 0, which is not one
of the fourteen enumerated switch cases. -/
def exampleSparsityZero : GBMatrix :=
  { format := .sparse, sparsity := 0, vlen := 4, vdim := 4, nnz := 1, nvec := 1,
    nzombies := 0, jumbled := false, n_pending := 0,
    hyper_switch := 1, bitmap_switch := 1, entries := {(2, 2, 9)} }

/-! The generated max-rminus-int64 semiring kernel
(Source/Generated/GB_AxB__max_rminus_int64.c).  Machine int64 values are
modelled as integers; two's-complement wraparound is explicit. -/

/-- Two's-complement wraparound of a 64-bit signed subtraction result. -/
def wrap64 (z : ℤ) : ℤ := (z + 2 ^ 63) % 2 ^ 64 - 2 ^ 63

/-- The largest int64 value. -/
def int64Max : ℤ := 2 ^ 63 - 1

/-- The smallest int64 value. -/
def int64Min : ℤ := -(2 ^ 63)

/-- GB_MULT (GB_AxB__max_rminus_int64.c line 50): z = y - x in int64. -/
def GB_MULT (x y : ℤ) : ℤ := wrap64 (y - x)

/-- GB_IMAX: the larger of two int64 values. -/
def GB_IMAX (x y : ℤ) : ℤ := if x > y then x else y

/-- GB_MULTADD (GB_AxB__max_rminus_int64.c line 54): z = GB_IMAX (z, y - x). -/
def GB_MULTADD (z x y : ℤ) : ℤ := GB_IMAX z (wrap64 (y - x))

/-- GB_IDENTITY (GB_AxB__max_rminus_int64.c line 59): INT64_MIN. -/
def GB_IDENTITY : ℤ := int64Min

/-- GB_DOT_TERMINAL (GB_AxB__max_rminus_int64.c line 63): the reduction
may stop as soon as cij equals INT64_MAX. -/
def GB_DOT_TERMINAL (cij : ℤ) : Prop := cij = int64Max

instance (cij : ℤ) : Decidable (GB_DOT_TERMINAL cij) := by
  unfold GB_DOT_TERMINAL; infer_instance

/-- Modelled from the spec (§4.1; the dot-product loop body
GB_AxB_dot_meta.c is not part of the sampled source): reduce a list of
(aik, bkj) pairs into the accumulator with GB_MULTADD, breaking out of the
loop as soon as the terminal condition holds. -/
def GB_dot (cij : ℤ) : List (ℤ × ℤ) → ℤ
  | [] => cij
  | (a, b) :: rest =>
      let z := GB_MULTADD cij a b
      if GB_DOT_TERMINAL z then z else GB_dot z rest

/-! The binding-layer format parser
(GraphBLAS/private/util/gb_mxstring_to_format.c). -/

/-- The two orientation identifiers. -/
inductive GxB_Format_Value
  | BY_ROW
  | BY_COL
deriving DecidableEq

/-- gb_mxstring_to_format (gb_mxstring_to_format.c lines 12-35): the MATCH
comparisons against the literals, else the unknown-format error.  MATCH is
modelled from the spec as string equality. -/
def gb_mxstring_to_format (s : String) : Except String GxB_Format_Value :=
  if s = "by row" then .ok .BY_ROW
  else if s = "by col" then .ok .BY_COL
  else .error "unknown format"

/-! The burble toggle (GraphBLAS/@GrB/private/mexfunctions/gbburble.c).
The MATLAB mxArray inputs are modelled as either a numeric scalar or a
non-scalar value; the process-wide burble is threaded explicitly. -/

/-- A MATLAB argument as gbburble inspects it. -/
inductive MxArr
  | scalar (v : ℚ)
  | nonscalar
deriving DecidableEq

/-- gbburble mexFunction (gbburble.c lines 12-50), returning the produced
output (or the raised error) together with the burble global after the
call.  With one scalar input the global is set first and the returned
value is read back from the global. -/
def gbburble (pargin : List MxArr) (nargout : ℕ) (burble : Bool) :
    Except String Bool × Bool :=
  if pargin.length ≤ 1 ∧ nargout ≤ 1 then
    match pargin with
    | [] => (.ok burble, burble)
    | [.scalar v] =>
        let b : Bool := decide (v ≠ 0)
        (.ok b, b)
    | [.nonscalar] => (.error "input must be a scalar", burble)
    | _ :: _ :: _ => (.error "usage", burble)
  else
    (.error "usage: b = GrB.burble ; or GrB.burble (b)", burble)

/-! The work-balanced vector slicer (Source/GB_slice_vector.c).  Index
arrays are modelled as functions from positions to row indices; a slice is
the half-open position range [p_start, p_end).  The outer while loop and
the binary split search are written with an explicit fuel so that every
definition is executable; the callers pass enough fuel that it is never
exhausted on the runs the theorems describe. -/

/-- Modelled from the spec (§4.4; the GB_BINARY_SPLIT_SEARCH macro is not
part of the sampled source): binary search on the position range
[pleft, pright] for the first position whose index is ≥ i, returning
pright + 1 when every index in the range is < i. -/
def GB_binary_split_search (fuel : ℕ) (i : ℤ) (X : ℤ → ℤ)
    (pleft pright : ℤ) : ℤ :=
  match fuel with
  | 0 => pleft
  | fuel + 1 =>
      if pleft < pright then
        let pmiddle := (pleft + pright) / 2
        if X pmiddle < i then GB_binary_split_search fuel i X (pmiddle + 1) pright
        else GB_binary_split_search fuel i X pleft pmiddle
      else
        if X pleft < i then pleft + 1 else pleft

/-- The per-slice position for a candidate row index i (GB_slice_vector.c
lines 106-123): -1 for an empty slice, p_start + i for a dense slice
(nnz = vlen), otherwise the binary split search over the slice. -/
def slicePos (i : ℤ) (X : ℤ → ℤ) (pstart pend : ℤ) (vlen : ℤ) : ℤ :=
  if pend - pstart = 0 then -1
  else if pend - pstart = vlen then pstart + i
  else GB_binary_split_search ((pend - 1 - pstart).toNat + 1) i X pstart (pend - 1)

/-- The work-too-low test of the outer loop (GB_slice_vector.c line 186):
work < 0.9999 · target_work, over exact rationals. -/
def workTooLow (work : ℤ) (t : ℚ) : Prop := (work : ℚ) < 9999 / 10000 * t

/-- Cross-multiplied form of the work-too-low comparison. -/
lemma workTooLow_iff (w : ℤ) (t : ℚ) :
    workTooLow w t ↔ w * 10000 * (t.den : ℤ) < 9999 * t.num := by
  unfold workTooLow
  have h1 : (9999 / 10000 * t : ℚ) = ((9999 * t.num : ℤ) : ℚ) / ((10000 * t.den : ℤ) : ℚ) := by
    conv_lhs => rw [← Rat.num_div_den t]
    push_cast
    ring
  rw [h1, lt_div_iff₀ (by positivity)]
  rw [show ((w : ℚ) * ((10000 * t.den : ℤ) : ℚ)) = ((w * 10000 * t.den : ℤ) : ℚ) by
    push_cast; ring]
  exact_mod_cast Iff.rfl

instance (w : ℤ) (t : ℚ) : Decidable (workTooLow w t) :=
  decidable_of_iff _ (workTooLow_iff w t).symm

/-- The work-too-high test of the outer loop (GB_slice_vector.c line 199):
work > 1.0001 · target_work, over exact rationals. -/
def workTooHigh (work : ℤ) (t : ℚ) : Prop := (work : ℚ) > 10001 / 10000 * t

/-- Cross-multiplied form of the work-too-high comparison. -/
lemma workTooHigh_iff (w : ℤ) (t : ℚ) :
    workTooHigh w t ↔ 10001 * t.num < w * 10000 * (t.den : ℤ) := by
  unfold workTooHigh
  have h1 : (10001 / 10000 * t : ℚ) = ((10001 * t.num : ℤ) : ℚ) / ((10000 * t.den : ℤ) : ℚ) := by
    conv_lhs => rw [← Rat.num_div_den t]
    push_cast
    ring
  rw [gt_iff_lt, h1, div_lt_iff₀ (by positivity)]
  rw [show ((w : ℚ) * ((10000 * t.den : ℤ) : ℚ)) = ((w * 10000 * t.den : ℤ) : ℚ) by
    push_cast; ring]
  exact_mod_cast Iff.rfl

instance (w : ℤ) (t : ℚ) : Decidable (workTooHigh w t) :=
  decidable_of_iff _ (workTooHigh_iff w t).symm

/-- The values carried by the slicer's outer loop: the current candidate
index, the two positions, and the number of iterations executed. -/
structure SliceState where
  i : ℤ
  pA : ℤ
  pB : ℤ
  iters : ℕ
deriving DecidableEq

/-- The outer binary-search loop of GB_slice_vector (lines 91-225):
while ileft < iright, probe the midpoint, compute its work, and either
narrow the interval or accept the midpoint. -/
def sliceLoop (Ai Bi : ℤ → ℤ) (pA_start pA_end pB_start pB_end vlen : ℤ)
    (target_work : ℚ) : ℕ → ℤ → ℤ → SliceState → SliceState
  | 0, _, _, st => st
  | fuel + 1, ileft, iright, st =>
      if ileft < iright then
        let i := (ileft + iright) / 2
        let pA := slicePos i Ai pA_start pA_end vlen
        let pB := slicePos i Bi pB_start pB_end vlen
        let work : ℤ :=
          (if pA_end - pA_start = 0 then 0 else pA_end - pA) +
          (if pB_end - pB_start = 0 then 0 else pB_end - pB)
        if workTooLow work target_work then
          sliceLoop Ai Bi pA_start pA_end pB_start pB_end vlen target_work
            fuel ileft i ⟨i, pA, pB, st.iters + 1⟩
        else if workTooHigh work target_work then
          sliceLoop Ai Bi pA_start pA_end pB_start pB_end vlen target_work
            fuel (i + 1) iright ⟨i, pA, pB, st.iters + 1⟩
        else
          ⟨i, pA, pB, st.iters + 1⟩
      else
        st

/-- The full result of GB_slice_vector. -/
structure SliceResult where
  i : ℤ
  pM : ℤ
  pA : ℤ
  pB : ℤ
  iters : ℕ
deriving DecidableEq

/-- GB_slice_vector (GB_slice_vector.c lines 34-274): find a split index i
and the positions pM, pA, pB where the subtask processing rows ≥ i starts;
an empty slice gets the sentinel -1.  The mask position is computed once,
after the loop. -/
def GB_slice_vector (pM_start pM_end : ℤ) (Mi : ℤ → ℤ)
    (pA_start pA_end : ℤ) (Ai : ℤ → ℤ)
    (pB_start pB_end : ℤ) (Bi : ℤ → ℤ)
    (vlen : ℤ) (target_work : ℚ) : SliceResult :=
  let pA0 : ℤ := if pA_end - pA_start = 0 then -1 else pA_start
  let pB0 : ℤ := if pB_end - pB_start = 0 then -1 else pB_start
  let st := sliceLoop Ai Bi pA_start pA_end pB_start pB_end vlen target_work
    (vlen.toNat + 1) 0 (vlen - 1) ⟨0, pA0, pB0, 0⟩
  let pM := slicePos st.i Mi pM_start pM_end vlen
  ⟨st.i, pM, st.pA, st.pB, st.iters⟩

/-! Supporting lemmas about the conversions and the conform engine. -/

@[simp] lemma entries_any_to_bitmap (A : GBMatrix) :
    (GB_convert_any_to_bitmap A).entries = A.entries := rfl

@[simp] lemma entries_any_to_full (A : GBMatrix) :
    (GB_convert_any_to_full A).entries = A.entries := rfl

@[simp] lemma entries_any_to_sparse (A : GBMatrix) :
    (GB_convert_any_to_sparse A).entries = A.entries := rfl

@[simp] lemma entries_any_to_hyper (A : GBMatrix) :
    (GB_convert_any_to_hyper A).entries = A.entries := rfl

@[simp] lemma entries_bitmap_to_sparse (A : GBMatrix) :
    (GB_convert_bitmap_to_sparse A).entries = A.entries := rfl

@[simp] lemma entries_conform_hyper (A : GBMatrix) :
    (GB_conform_hyper A).entries = A.entries := by
  unfold GB_conform_hyper
  split_ifs <;> rfl

@[simp] lemma entries_hyper_or_bitmap (A : GBMatrix) :
    (GB_hyper_or_bitmap A).entries = A.entries := by
  unfold GB_hyper_or_bitmap
  split_ifs <;> rfl

@[simp] lemma entries_sparse_or_bitmap (A : GBMatrix) :
    (GB_sparse_or_bitmap A).entries = A.entries := by
  unfold GB_sparse_or_bitmap
  split_ifs <;> rfl

@[simp] lemma entries_hyper_sparse_or_bitmap (A : GBMatrix) :
    (GB_hyper_sparse_or_bitmap A).entries = A.entries := by
  unfold GB_hyper_sparse_or_bitmap
  split_ifs <;> simp

lemma entries_ite (A : GBMatrix) (c : Prop) (inst : Decidable c) (a b : GBMatrix)
    (ha : a.entries = A.entries) (hb : b.entries = A.entries) :
    (@ite _ c inst a b).entries = A.entries := by
  by_cases h : c
  · rw [if_pos h]; exact ha
  · rw [if_neg h]; exact hb

lemma entries_conform_dispatch (s : ℕ) (A : GBMatrix) :
    (GB_conform_dispatch s A).entries = A.entries := by
  unfold GB_conform_dispatch
  repeat' (first | apply entries_ite | rw [entries_conform_hyper])
  all_goals simp

@[simp] lemma format_any_to_bitmap (A : GBMatrix) :
    (GB_convert_any_to_bitmap A).format = .bitmap := rfl

@[simp] lemma format_any_to_full (A : GBMatrix) :
    (GB_convert_any_to_full A).format = .full := rfl

@[simp] lemma format_any_to_sparse (A : GBMatrix) :
    (GB_convert_any_to_sparse A).format = .sparse := rfl

@[simp] lemma format_any_to_hyper (A : GBMatrix) :
    (GB_convert_any_to_hyper A).format = .hyper := rfl

@[simp] lemma format_bitmap_to_sparse (A : GBMatrix) :
    (GB_convert_bitmap_to_sparse A).format = .sparse := rfl

/-- GB_conform_hyper keeps a hypersparse-or-sparse matrix hypersparse or
sparse. -/
lemma format_conform_hyper_hs (A : GBMatrix)
    (h : A.format = .hyper ∨ A.format = .sparse) :
    (GB_conform_hyper A).format = .hyper ∨ (GB_conform_hyper A).format = .sparse := by
  unfold GB_conform_hyper
  split_ifs <;> simp_all

/-- GB_hyper_or_bitmap always lands in hypersparse or bitmap. -/
lemma format_hyper_or_bitmap (A : GBMatrix) :
    (GB_hyper_or_bitmap A).format = .hyper ∨ (GB_hyper_or_bitmap A).format = .bitmap := by
  unfold GB_hyper_or_bitmap
  split_ifs with h1 h2
  · right; rfl
  · left; rfl
  · cases hf : A.format <;> simp_all

/-- GB_sparse_or_bitmap always lands in sparse or bitmap. -/
lemma format_sparse_or_bitmap (A : GBMatrix) :
    (GB_sparse_or_bitmap A).format = .sparse ∨ (GB_sparse_or_bitmap A).format = .bitmap := by
  unfold GB_sparse_or_bitmap
  split_ifs with h1 h2
  · right; rfl
  · left; rfl
  · cases hf : A.format <;> simp_all

/-- GB_hyper_sparse_or_bitmap always lands in hypersparse, sparse, or
bitmap. -/
lemma format_hyper_sparse_or_bitmap (A : GBMatrix) :
    (GB_hyper_sparse_or_bitmap A).format = .hyper ∨
      (GB_hyper_sparse_or_bitmap A).format = .sparse ∨
      (GB_hyper_sparse_or_bitmap A).format = .bitmap := by
  unfold GB_hyper_sparse_or_bitmap
  split_ifs with h1 h2 h3
  · right; right; rfl
  · rcases format_conform_hyper_hs (GB_convert_bitmap_to_sparse A) (by simp) with h | h
    · left; exact h
    · right; left; exact h
  · right; right; exact h2
  · rcases format_conform_hyper_hs A (by cases hf : A.format <;> simp_all) with h | h
    · left; exact h
    · right; left; exact h

/-- The bitmap-to-sparse and sparse-to-bitmap tests are exact complements
(the spec notes the boundary is strict on one side, non-strict on the
other). -/
lemma not_bitmap_to_sparse_test (b : ℚ) (n v d : ℕ) :
    ¬ GB_convert_bitmap_to_sparse_test b n v d ↔
      GB_convert_sparse_to_bitmap_test b n v d := by
  unfold GB_convert_bitmap_to_sparse_test GB_convert_sparse_to_bitmap_test
  exact not_lt

/-- The three possible outcomes of GB_conform_hyper. -/
lemma GB_conform_hyper_cases (A : GBMatrix) :
    GB_conform_hyper A = A ∨
      (GB_conform_hyper A = { A with format := .sparse } ∧ A.format = .hyper ∧
        GB_convert_hyper_to_sparse_test A.hyper_switch A.nvec A.vdim) ∨
      (GB_conform_hyper A = { A with format := .hyper } ∧ A.format = .sparse ∧
        GB_convert_sparse_to_hyper_test A.hyper_switch A.nvec A.vdim) := by
  unfold GB_conform_hyper
  split_ifs with hc1 hc2
  · exact Or.inr (Or.inl ⟨rfl, hc1⟩)
  · exact Or.inr (Or.inr ⟨rfl, hc2⟩)
  · exact Or.inl rfl

/-- Claim C6: one application of the hyper/sparse conform reaches a fixed
point (the hyper-to-sparse rule is non-strict and the sparse-to-hyper rule
strict, so the result cannot oscillate), and GB_conform_hyper never changes
a matrix to bitmap or full format. -/
theorem GB_conform_hyper_idempotent (A : GBMatrix) :
    GB_conform_hyper (GB_conform_hyper A) = GB_conform_hyper A ∧
      ((GB_conform_hyper A).format = A.format ∨
        (GB_conform_hyper A).format = .sparse ∨
        (GB_conform_hyper A).format = .hyper) := by
  rcases GB_conform_hyper_cases A with he | ⟨he, hfmt, htest⟩ | ⟨he, hfmt, htest⟩
  · constructor
    · rw [he, he]
    · rw [he]
      exact Or.inl rfl
  · constructor
    · rw [he]
      unfold GB_conform_hyper
      rw [if_neg (by simp), if_neg ?_]
      intro hc
      exact absurd hc.2 (by
        unfold GB_convert_sparse_to_hyper_test
        unfold GB_convert_hyper_to_sparse_test at htest
        simpa using not_lt.mpr htest)
    · rw [he]
      exact Or.inr (Or.inl rfl)
  · constructor
    · rw [he]
      unfold GB_conform_hyper
      rw [if_neg ?_, if_neg (by simp)]
      intro hc
      exact absurd hc.2 (by
        unfold GB_convert_hyper_to_sparse_test
        unfold GB_convert_sparse_to_hyper_test at htest
        simpa using not_le.mpr htest)
    · rw [he]
      exact Or.inr (Or.inr rfl)

/-- Claim C3: under sparsity control AUTO, a matrix that is fully
populated without pending work is conformed to the full format. -/
theorem GB_conform_auto_dense_full (A : GBMatrix)
    (hs : A.sparsity = GxB_AUTO_SPARSITY)
    (hdense : is_full_or_dense_with_no_pending_work A) :
    (GB_conform A).format = .full := by
  unfold GB_conform GB_conform_dispatch
  rw [hs]
  norm_num [GxB_HYPERSPARSE, GxB_SPARSE, GxB_BITMAP, GxB_FULL, GxB_AUTO_SPARSITY]
  rw [if_pos hdense]
  rfl

/-- Claim C3 witness: a concrete 10 × 10 dense AUTO matrix conforms to
full. -/
theorem GB_conform_auto_dense_full_witness :
    (GB_conform exampleAutoDense).format = .full :=
  GB_conform_auto_dense_full exampleAutoDense (by decide) (by decide)

/-- Claim C2: with sparsity control {hypersparse, bitmap}, GB_conform
lands in bitmap exactly when the matrix is full or the sparse-to-bitmap
density test nnz ≥ bitmap_switch · vlen · vdim passes, and in hypersparse
otherwise; the result is always one of these two formats. -/
theorem GB_conform_hyper_bitmap_policy (A : GBMatrix)
    (hs : A.sparsity = GxB_HYPERSPARSE + GxB_BITMAP) :
    ((GB_conform A).format = .bitmap ↔
      (A.format = .full ∨
        GB_convert_sparse_to_bitmap_test A.bitmap_switch A.nnz A.vlen A.vdim)) ∧
    ((GB_conform A).format = .hyper ↔
      ¬(A.format = .full ∨
        GB_convert_sparse_to_bitmap_test A.bitmap_switch A.nnz A.vlen A.vdim)) ∧
    ((GB_conform A).format = .bitmap ∨ (GB_conform A).format = .hyper) := by
  have hd : GB_conform A = GB_hyper_or_bitmap A := by
    unfold GB_conform GB_conform_dispatch
    rw [hs]
    norm_num [GxB_HYPERSPARSE, GxB_SPARSE, GxB_BITMAP, GxB_FULL]
  rw [hd]
  unfold GB_hyper_or_bitmap
  split_ifs with h1 h2
  · have hc : A.format = .full ∨
        GB_convert_sparse_to_bitmap_test A.bitmap_switch A.nnz A.vlen A.vdim := by
      rcases h1 with h | ⟨_, h⟩
      · exact Or.inl h
      · exact Or.inr h
    exact ⟨⟨fun _ => hc, fun _ => rfl⟩,
      ⟨fun h => (nomatch h), fun hn => (hn hc).elim⟩, Or.inl rfl⟩
  · have hnc : ¬(A.format = .full ∨
        GB_convert_sparse_to_bitmap_test A.bitmap_switch A.nnz A.vlen A.vdim) := by
      rintro (hf | ht)
      · exact h1 (Or.inl hf)
      · rcases h2 with hsp | ⟨_, hb2s⟩
        · exact h1 (Or.inr ⟨Or.inr hsp, ht⟩)
        · exact absurd hb2s ((not_bitmap_to_sparse_test _ _ _ _).mpr ht)
    exact ⟨⟨fun h => (nomatch h), fun hcc => (hnc hcc).elim⟩,
      ⟨fun _ => hnc, fun _ => rfl⟩, Or.inr rfl⟩
  · cases hf : A.format with
    | hyper =>
        have hnc : ¬(GBFormat.hyper = GBFormat.full ∨
            GB_convert_sparse_to_bitmap_test A.bitmap_switch A.nnz A.vlen A.vdim) := by
          rintro (hfull | ht)
          · exact nomatch hfull
          · exact h1 (Or.inr ⟨Or.inl hf, ht⟩)
        exact ⟨⟨fun h => (nomatch h), fun hcc => (hnc hcc).elim⟩,
          ⟨fun _ => hnc, fun _ => rfl⟩, Or.inr rfl⟩
    | sparse => exact absurd (Or.inl hf) h2
    | bitmap =>
        have hs2b : GB_convert_sparse_to_bitmap_test A.bitmap_switch A.nnz A.vlen A.vdim := by
          refine (not_bitmap_to_sparse_test _ _ _ _).mp fun hb2s => h2 (Or.inr ⟨hf, hb2s⟩)
        exact ⟨⟨fun _ => Or.inr hs2b, fun _ => rfl⟩,
          ⟨fun h => (nomatch h), fun hn => (hn (Or.inr hs2b)).elim⟩, Or.inl rfl⟩
    | full => exact absurd (Or.inl hf) h1

/-- Claim C2 witness: GB_conform on a concrete sparse matrix with policy
{hypersparse, bitmap} and few entries lands in hypersparse, matching the
density test. -/
theorem GB_conform_hyper_bitmap_policy_witness :
    examplePolicyHB.sparsity = GxB_HYPERSPARSE + GxB_BITMAP ∧
      (GB_conform examplePolicyHB).format = .hyper ∧
      ¬(examplePolicyHB.format = .full ∨
        GB_convert_sparse_to_bitmap_test examplePolicyHB.bitmap_switch
          examplePolicyHB.nnz examplePolicyHB.vlen examplePolicyHB.vdim) :=
  ⟨by decide, by decide,
    ((GB_conform_hyper_bitmap_policy examplePolicyHB (by decide)).2.1).mp (by decide)⟩

/-- Claim C10: any sparsity-control value other than the fourteen
enumerated combinations (including 0) falls to the default case of the
switch and is handled exactly like GxB_AUTO_SPARSITY. -/
theorem GB_conform_default_like_auto (A : GBMatrix)
    (h : A.sparsity < 1 ∨ 14 < A.sparsity) :
    GB_conform A = GB_conform_dispatch GxB_AUTO_SPARSITY A := by
  have e1 : A.sparsity ≠ GxB_HYPERSPARSE := by unfold GxB_HYPERSPARSE; omega
  have e2 : A.sparsity ≠ GxB_SPARSE := by unfold GxB_SPARSE; omega
  have e3 : A.sparsity ≠ GxB_HYPERSPARSE + GxB_SPARSE := by
    unfold GxB_HYPERSPARSE GxB_SPARSE; omega
  have e4 : A.sparsity ≠ GxB_BITMAP := by unfold GxB_BITMAP; omega
  have e5 : A.sparsity ≠ GxB_HYPERSPARSE + GxB_BITMAP := by
    unfold GxB_HYPERSPARSE GxB_BITMAP; omega
  have e6 : A.sparsity ≠ GxB_SPARSE + GxB_BITMAP := by
    unfold GxB_SPARSE GxB_BITMAP; omega
  have e7 : A.sparsity ≠ GxB_HYPERSPARSE + GxB_SPARSE + GxB_BITMAP := by
    unfold GxB_HYPERSPARSE GxB_SPARSE GxB_BITMAP; omega
  have e8 : ¬(A.sparsity = GxB_FULL ∨ A.sparsity = GxB_FULL + GxB_BITMAP) := by
    unfold GxB_FULL GxB_BITMAP; omega
  have e9 : A.sparsity ≠ GxB_HYPERSPARSE + GxB_FULL := by
    unfold GxB_HYPERSPARSE GxB_FULL; omega
  have e10 : A.sparsity ≠ GxB_SPARSE + GxB_FULL := by
    unfold GxB_SPARSE GxB_FULL; omega
  have e11 : A.sparsity ≠ GxB_HYPERSPARSE + GxB_SPARSE + GxB_FULL := by
    unfold GxB_HYPERSPARSE GxB_SPARSE GxB_FULL; omega
  have e12 : A.sparsity ≠ GxB_HYPERSPARSE + GxB_BITMAP + GxB_FULL := by
    unfold GxB_HYPERSPARSE GxB_BITMAP GxB_FULL; omega
  have e13 : A.sparsity ≠ GxB_SPARSE + GxB_BITMAP + GxB_FULL := by
    unfold GxB_SPARSE GxB_BITMAP GxB_FULL; omega
  unfold GB_conform GB_conform_dispatch
  rw [if_neg e1, if_neg e2, if_neg e3, if_neg e4, if_neg e5, if_neg e6, if_neg e7,
    if_neg e8, if_neg e9, if_neg e10, if_neg e11, if_neg e12, if_neg e13]
  norm_num [GxB_HYPERSPARSE, GxB_SPARSE, GxB_BITMAP, GxB_FULL, GxB_AUTO_SPARSITY]

/-- Claim C10 witness: a matrix with sparsity control 0 conforms exactly
as it would under AUTO. -/
theorem GB_conform_default_like_auto_witness :
    exampleSparsityZero.sparsity < 1 ∧
      GB_conform exampleSparsityZero =
        GB_conform_dispatch GxB_AUTO_SPARSITY exampleSparsityZero :=
  ⟨by decide, GB_conform_default_like_auto exampleSparsityZero (Or.inl (by decide))⟩

/-- Claim C1 (counterexample): a sparse non-dense matrix whose policy is
the single format FULL (sparsity control 8) is conformed to bitmap, so the
resulting format does not lie in the policy, refuting the claim that the
format after GB_conform always lies in the policy. -/
theorem GB_conform_policy_counterexample :
    1 ≤ examplePolicyFull.sparsity ∧ examplePolicyFull.sparsity ≤ 15 ∧
      (GB_conform examplePolicyFull).entries = examplePolicyFull.entries ∧
      ¬ formatIn (GB_conform examplePolicyFull).format examplePolicyFull.sparsity :=
  ⟨by decide, by decide, by decide, by decide⟩

/-- Claim C1 (amended): for every matrix and every legal (non-zero)
sparsity-control policy, GB_conform preserves the multiset of live entries,
and the resulting format lies in the policy except in the single case of
policy {FULL} on a matrix that is not fully populated without pending work,
which is left in bitmap format. -/
theorem GB_conform_entries_and_policy (A : GBMatrix)
    (hlo : 1 ≤ A.sparsity) (hhi : A.sparsity ≤ 15) :
    (GB_conform A).entries = A.entries ∧
      (formatIn (GB_conform A).format A.sparsity ∨
        (A.sparsity = GxB_FULL ∧ ¬ is_full_or_dense_with_no_pending_work A ∧
          (GB_conform A).format = .bitmap)) := by
  refine ⟨entries_conform_dispatch _ _, ?_⟩
  unfold GB_conform
  set s := A.sparsity with hs
  interval_cases s
  · have hd : GB_conform_dispatch 1 A = GB_convert_any_to_hyper A := by
      norm_num [GB_conform_dispatch, GxB_HYPERSPARSE, GxB_SPARSE, GxB_BITMAP, GxB_FULL]
    rw [hd]
    exact Or.inl (by rw [format_any_to_hyper]; decide)
  · have hd : GB_conform_dispatch 2 A = GB_convert_any_to_sparse A := by
      norm_num [GB_conform_dispatch, GxB_HYPERSPARSE, GxB_SPARSE, GxB_BITMAP, GxB_FULL]
    rw [hd]
    exact Or.inl (by rw [format_any_to_sparse]; decide)
  · have hd : GB_conform_dispatch 3 A = GB_conform_hyper
        (if A.format = .full ∨ A.format = .bitmap then GB_convert_any_to_sparse A else A) := by
      norm_num [GB_conform_dispatch, GxB_HYPERSPARSE, GxB_SPARSE, GxB_BITMAP, GxB_FULL]
    rw [hd]
    have harg : (if A.format = .full ∨ A.format = .bitmap then
        GB_convert_any_to_sparse A else A).format = .hyper ∨
        (if A.format = .full ∨ A.format = .bitmap then
        GB_convert_any_to_sparse A else A).format = .sparse := by
      split_ifs with hc
      · exact Or.inr rfl
      · cases hf : A.format with
        | hyper => exact Or.inl rfl
        | sparse => exact Or.inr rfl
        | bitmap => exact absurd (Or.inr hf) hc
        | full => exact absurd (Or.inl hf) hc
    rcases format_conform_hyper_hs _ harg with h | h <;> exact Or.inl (by rw [h]; decide)
  · have hd : GB_conform_dispatch 4 A = GB_convert_any_to_bitmap A := by
      norm_num [GB_conform_dispatch, GxB_HYPERSPARSE, GxB_SPARSE, GxB_BITMAP, GxB_FULL]
    rw [hd]
    exact Or.inl (by rw [format_any_to_bitmap]; decide)
  · have hd : GB_conform_dispatch 5 A = GB_hyper_or_bitmap A := by
      norm_num [GB_conform_dispatch, GxB_HYPERSPARSE, GxB_SPARSE, GxB_BITMAP, GxB_FULL]
    rw [hd]
    rcases format_hyper_or_bitmap A with h | h <;> exact Or.inl (by rw [h]; decide)
  · have hd : GB_conform_dispatch 6 A = GB_sparse_or_bitmap A := by
      norm_num [GB_conform_dispatch, GxB_HYPERSPARSE, GxB_SPARSE, GxB_BITMAP, GxB_FULL]
    rw [hd]
    rcases format_sparse_or_bitmap A with h | h <;> exact Or.inl (by rw [h]; decide)
  · have hd : GB_conform_dispatch 7 A = GB_hyper_sparse_or_bitmap A := by
      norm_num [GB_conform_dispatch, GxB_HYPERSPARSE, GxB_SPARSE, GxB_BITMAP, GxB_FULL]
    rw [hd]
    rcases format_hyper_sparse_or_bitmap A with h | h | h <;>
      exact Or.inl (by rw [h]; decide)
  · have hd : GB_conform_dispatch 8 A =
        if is_full_or_dense_with_no_pending_work A then GB_convert_any_to_full A
        else GB_convert_any_to_bitmap A := by
      norm_num [GB_conform_dispatch, GxB_HYPERSPARSE, GxB_SPARSE, GxB_BITMAP, GxB_FULL]
    rw [hd]
    split_ifs with hdense
    · exact Or.inl (by rw [format_any_to_full]; decide)
    · exact Or.inr ⟨rfl, hdense, rfl⟩
  · have hd : GB_conform_dispatch 9 A =
        if is_full_or_dense_with_no_pending_work A then GB_convert_any_to_full A
        else GB_convert_any_to_hyper A := by
      norm_num [GB_conform_dispatch, GxB_HYPERSPARSE, GxB_SPARSE, GxB_BITMAP, GxB_FULL]
    rw [hd]
    split_ifs with hdense
    · exact Or.inl (by rw [format_any_to_full]; decide)
    · exact Or.inl (by rw [format_any_to_hyper]; decide)
  · have hd : GB_conform_dispatch 10 A =
        if is_full_or_dense_with_no_pending_work A then GB_convert_any_to_full A
        else GB_convert_any_to_sparse A := by
      norm_num [GB_conform_dispatch, GxB_HYPERSPARSE, GxB_SPARSE, GxB_BITMAP, GxB_FULL]
    rw [hd]
    split_ifs with hdense
    · exact Or.inl (by rw [format_any_to_full]; decide)
    · exact Or.inl (by rw [format_any_to_sparse]; decide)
  · have hd : GB_conform_dispatch 11 A =
        if is_full_or_dense_with_no_pending_work A then GB_convert_any_to_full A
        else if A.format = .bitmap then GB_conform_hyper (GB_convert_bitmap_to_sparse A)
        else GB_conform_hyper A := by
      norm_num [GB_conform_dispatch, GxB_HYPERSPARSE, GxB_SPARSE, GxB_BITMAP, GxB_FULL]
    rw [hd]
    split_ifs with hdense hbit
    · exact Or.inl (by rw [format_any_to_full]; decide)
    · rcases format_conform_hyper_hs (GB_convert_bitmap_to_sparse A) (Or.inr rfl) with h | h <;>
        exact Or.inl (by rw [h]; decide)
    · have harg : A.format = .hyper ∨ A.format = .sparse := by
        cases hf : A.format with
        | hyper => exact Or.inl rfl
        | sparse => exact Or.inr rfl
        | bitmap => exact absurd hf hbit
        | full => exact absurd (Or.inl hf) hdense
      rcases format_conform_hyper_hs A harg with h | h <;> exact Or.inl (by rw [h]; decide)
  · have hd : GB_conform_dispatch 12 A =
        if is_full_or_dense_with_no_pending_work A then GB_convert_any_to_full A
        else GB_convert_any_to_bitmap A := by
      norm_num [GB_conform_dispatch, GxB_HYPERSPARSE, GxB_SPARSE, GxB_BITMAP, GxB_FULL]
    rw [hd]
    split_ifs with hdense
    · exact Or.inl (by rw [format_any_to_full]; decide)
    · exact Or.inl (by rw [format_any_to_bitmap]; decide)
  · have hd : GB_conform_dispatch 13 A =
        if is_full_or_dense_with_no_pending_work A then GB_convert_any_to_full A
        else GB_hyper_or_bitmap A := by
      norm_num [GB_conform_dispatch, GxB_HYPERSPARSE, GxB_SPARSE, GxB_BITMAP, GxB_FULL]
    rw [hd]
    split_ifs with hdense
    · exact Or.inl (by rw [format_any_to_full]; decide)
    · rcases format_hyper_or_bitmap A with h | h <;> exact Or.inl (by rw [h]; decide)
  · have hd : GB_conform_dispatch 14 A =
        if is_full_or_dense_with_no_pending_work A then GB_convert_any_to_full A
        else GB_sparse_or_bitmap A := by
      norm_num [GB_conform_dispatch, GxB_HYPERSPARSE, GxB_SPARSE, GxB_BITMAP, GxB_FULL]
    rw [hd]
    split_ifs with hdense
    · exact Or.inl (by rw [format_any_to_full]; decide)
    · rcases format_sparse_or_bitmap A with h | h <;> exact Or.inl (by rw [h]; decide)
  · have hd : GB_conform_dispatch 15 A =
        if is_full_or_dense_with_no_pending_work A then GB_convert_any_to_full A
        else GB_hyper_sparse_or_bitmap A := by
      norm_num [GB_conform_dispatch, GxB_HYPERSPARSE, GxB_SPARSE, GxB_BITMAP, GxB_FULL]
    rw [hd]
    split_ifs with hdense
    · exact Or.inl (by rw [format_any_to_full]; decide)
    · rcases format_hyper_sparse_or_bitmap A with h | h | h <;>
        exact Or.inl (by rw [h]; decide)

/-- Claim C1 witness: a concrete bitmap matrix under policy
{hyper, sparse} keeps its live entries and lands in a policy format. -/
theorem GB_conform_entries_and_policy_witness :
    1 ≤ examplePolicyHS.sparsity ∧ examplePolicyHS.sparsity ≤ 15 ∧
      ((GB_conform examplePolicyHS).entries = examplePolicyHS.entries ∧
        (formatIn (GB_conform examplePolicyHS).format examplePolicyHS.sparsity ∨
          (examplePolicyHS.sparsity = GxB_FULL ∧
            ¬ is_full_or_dense_with_no_pending_work examplePolicyHS ∧
            (GB_conform examplePolicyHS).format = .bitmap))) :=
  ⟨by decide, by decide,
    GB_conform_entries_and_policy examplePolicyHS (by decide) (by decide)⟩

/-- Claim C7: in the generated max-rminus-int64 kernel, the multiply
computes z = y - x (exactly so whenever the difference fits in int64), the
additive identity INT64_MIN is an identity for the max monoid on int64
values, the multiply-add computes z = max (z, y - x), the terminal
predicate holds exactly at INT64_MAX, and the dot-product reduction exits
early exactly when the accumulator reaches INT64_MAX (after which the
result can no longer change). -/
theorem max_rminus_int64_kernel_contract :
    (∀ x y : ℤ, int64Min ≤ y - x → y - x ≤ int64Max → GB_MULT x y = y - x) ∧
    GB_IDENTITY = -(2 ^ 63) ∧
    (∀ z : ℤ, int64Min ≤ z → GB_IMAX GB_IDENTITY z = z ∧ GB_IMAX z GB_IDENTITY = z) ∧
    (∀ z x y : ℤ, GB_MULTADD z x y = GB_IMAX z (GB_MULT x y)) ∧
    (∀ z : ℤ, GB_DOT_TERMINAL z ↔ z = int64Max) ∧
    (∀ cij : ℤ, ∀ l : List (ℤ × ℤ), GB_DOT_TERMINAL cij → GB_dot cij l = cij) ∧
    (∀ cij a b : ℤ, ∀ rest : List (ℤ × ℤ),
      ¬ GB_DOT_TERMINAL (GB_MULTADD cij a b) →
        GB_dot cij ((a, b) :: rest) = GB_dot (GB_MULTADD cij a b) rest) := by
  have hterm_stable : ∀ cij a b : ℤ, GB_DOT_TERMINAL cij → GB_MULTADD cij a b = cij := by
    intro cij a b h
    have hcij : cij = int64Max := h
    unfold GB_MULTADD GB_IMAX
    split_ifs with hgt
    · rfl
    · unfold wrap64 int64Max at *
      omega
  refine ⟨?_, rfl, ?_, fun _ _ _ => rfl, fun _ => Iff.rfl, ?_, ?_⟩
  · intro x y h1 h2
    unfold GB_MULT wrap64 int64Min int64Max at *
    omega
  · intro z hz
    unfold GB_IMAX GB_IDENTITY int64Min at *
    constructor <;> split_ifs <;> omega
  · intro cij l h
    cases l with
    | nil => rfl
    | cons p rest =>
        obtain ⟨a, b⟩ := p
        simp only [GB_dot]
        rw [hterm_stable cij a b h, if_pos h]
  · intro cij a b rest h
    simp only [GB_dot]
    rw [if_neg h]

/-- Claim C7 witness: the multiply at (3, 10), the identity law at 5, and
the early-exit of the dot reduction at a saturated accumulator. -/
theorem max_rminus_int64_kernel_contract_witness :
    GB_MULT 3 10 = 7 ∧ GB_IMAX GB_IDENTITY 5 = 5 ∧
      GB_dot int64Max [(1, 2)] = int64Max :=
  ⟨max_rminus_int64_kernel_contract.1 3 10 (by norm_num [int64Min]) (by norm_num [int64Max]),
    (max_rminus_int64_kernel_contract.2.2.1 5 (by norm_num [int64Min])).1,
    max_rminus_int64_kernel_contract.2.2.2.2.2.1 int64Max [(1, 2)] rfl⟩

/-- Claim C8: the format parser returns BY_ROW exactly on the string
"by row", BY_COL exactly on "by col", and the unknown-format error on
every other string. -/
theorem gb_mxstring_to_format_spec (s : String) :
    (gb_mxstring_to_format s = .ok .BY_ROW ↔ s = "by row") ∧
    (gb_mxstring_to_format s = .ok .BY_COL ↔ s = "by col") ∧
    (s ≠ "by row" → s ≠ "by col" →
      gb_mxstring_to_format s = .error "unknown format") := by
  unfold gb_mxstring_to_format
  split_ifs with h1 h2 <;>
    refine ⟨?_, ?_, ?_⟩ <;> simp_all

/-- Claim C8 witness: the parser at the three kinds of input. -/
theorem gb_mxstring_to_format_spec_witness :
    gb_mxstring_to_format "by row" = .ok .BY_ROW ∧
      gb_mxstring_to_format "by col" = .ok .BY_COL ∧
      gb_mxstring_to_format "by diagonal" = .error "unknown format" :=
  ⟨(gb_mxstring_to_format_spec "by row").1.mpr rfl,
    (gb_mxstring_to_format_spec "by col").2.1.mpr rfl,
    (gb_mxstring_to_format_spec "by diagonal").2.2 (by decide) (by decide)⟩

/-- Claim C9: gbburble with no input returns the current global burble
unchanged; with one scalar input it sets the global to the scalar's truth
value and returns the value read back from the global (so the returned
value always equals the stored global at return); a non-scalar input or
excess arity raises an error without changing the global. -/
theorem gbburble_spec (pargin : List MxArr) (nargout : ℕ) (g : Bool) :
    (pargin = [] → nargout ≤ 1 → gbburble pargin nargout g = (.ok g, g)) ∧
    (∀ v : ℚ, pargin = [.scalar v] → nargout ≤ 1 →
      gbburble pargin nargout g = (.ok (decide (v ≠ 0)), decide (v ≠ 0))) ∧
    ((1 < pargin.length ∨ 1 < nargout ∨ pargin = [.nonscalar]) →
      (∃ e, (gbburble pargin nargout g).1 = .error e) ∧
        (gbburble pargin nargout g).2 = g) ∧
    (∀ b : Bool, (gbburble pargin nargout g).1 = .ok b →
      (gbburble pargin nargout g).2 = b) := by
  refine ⟨?_, ?_, ?_, ?_⟩
  · rintro rfl hn
    unfold gbburble
    rw [if_pos ⟨by simp, hn⟩]
  · rintro v rfl hn
    unfold gbburble
    rw [if_pos ⟨by simp, hn⟩]
  · intro h
    unfold gbburble
    rcases h with hlen | hn | hns
    · rw [if_neg (by omega)]
      exact ⟨⟨_, rfl⟩, rfl⟩
    · rw [if_neg (by omega)]
      exact ⟨⟨_, rfl⟩, rfl⟩
    · subst hns
      by_cases hn : nargout ≤ 1
      · rw [if_pos ⟨by simp, hn⟩]
        exact ⟨⟨_, rfl⟩, rfl⟩
      · rw [if_neg (by omega)]
        exact ⟨⟨_, rfl⟩, rfl⟩
  · intro b
    unfold gbburble
    split_ifs with hc
    · rcases pargin with _ | ⟨a, _ | ⟨a2, rest⟩⟩
      · intro h
        simp only at h
        cases h
        rfl
      · cases a with
        | scalar v =>
            intro h
            simp only at h
            cases h
            rfl
        | nonscalar =>
            intro h
            simp only at h
            cases h
      · intro h
        simp only at h
        cases h
    · intro h
      simp only at h

/-- Claim C9 witness: gbburble at the four kinds of call. -/
theorem gbburble_spec_witness :
    gbburble [] 1 true = (.ok true, true) ∧
      gbburble [.scalar 2] 0 false = (.ok true, true) ∧
      (∃ e, (gbburble [.nonscalar] 0 false).1 = .error e) ∧
      (gbburble [.nonscalar] 0 false).2 = false :=
  ⟨(gbburble_spec [] 1 true).1 rfl (by omega),
    by
      have h := (gbburble_spec [.scalar 2] 0 false).2.1 2 rfl (by omega)
      rw [h]
      norm_num,
    ((gbburble_spec [.nonscalar] 0 false).2.2.1 (Or.inr (Or.inr rfl))).1,
    ((gbburble_spec [.nonscalar] 0 false).2.2.1 (Or.inr (Or.inr rfl))).2⟩

/-! Correctness of the vector slicer. -/

/-- A legal slice: non-negative positions, strictly ascending row indices,
all indices within [0, vlen). -/
def legalSlice (pstart pend : ℤ) (X : ℤ → ℤ) (vlen : ℤ) : Prop :=
  0 ≤ pstart ∧ pstart ≤ pend ∧
    (∀ p q, pstart ≤ p → p < q → q < pend → X p < X q) ∧
    (∀ p, pstart ≤ p → p < pend → 0 ≤ X p ∧ X p < vlen)

/-- The boundary invariants of GB_slice_vector (§4.4, asserted at
GB_slice_vector.c lines 260-265) for one slice and one candidate index. -/
def sliceInv (pstart pend : ℤ) (X : ℤ → ℤ) (i p : ℤ) : Prop :=
  (p = -1 ↔ pend - pstart = 0) ∧
    (pend - pstart ≠ 0 → pstart ≤ p ∧ p ≤ pend) ∧
    (pstart < p → p < pend → X (p - 1) < i) ∧
    (pstart ≤ p → p < pend → i ≤ X p)

/-- The binary split search returns the first position in [lo, hi] whose
index is ≥ i (or hi + 1), provided the indices are sorted on [lo, hi] and
the fuel exceeds the range length. -/
lemma split_search_spec (i : ℤ) (X : ℤ → ℤ) :
    ∀ (fuel : ℕ) (lo hi : ℤ), (hi - lo).toNat < fuel → lo ≤ hi →
      (∀ p q, lo ≤ p → p ≤ q → q ≤ hi → X p ≤ X q) →
      lo ≤ GB_binary_split_search fuel i X lo hi ∧
        GB_binary_split_search fuel i X lo hi ≤ hi + 1 ∧
        (∀ q, lo ≤ q → q < GB_binary_split_search fuel i X lo hi → X q < i) ∧
        (∀ q, GB_binary_split_search fuel i X lo hi ≤ q → q ≤ hi → i ≤ X q) := by
  intro fuel
  induction fuel with
  | zero => intro lo hi hf _ _; omega
  | succ f ih =>
      intro lo hi hf hlohi hmono
      simp only [GB_binary_split_search]
      by_cases hlt : lo < hi
      · rw [if_pos hlt]
        have hm1 : lo ≤ (lo + hi) / 2 := by omega
        have hm2 : (lo + hi) / 2 < hi := by omega
        by_cases hx : X ((lo + hi) / 2) < i
        · rw [if_pos hx]
          have hr := ih ((lo + hi) / 2 + 1) hi (by omega) (by omega)
            (fun p q hp hpq hq => hmono p q (by omega) hpq hq)
          refine ⟨by omega, hr.2.1, ?_, hr.2.2.2⟩
          intro q hq1 hq2
          by_cases hqm : q ≤ (lo + hi) / 2
          · calc X q ≤ X ((lo + hi) / 2) := hmono q _ hq1 hqm (by omega)
              _ < i := hx
          · exact hr.2.2.1 q (by omega) hq2
        · rw [if_neg hx]
          have hr := ih lo ((lo + hi) / 2) (by omega) (by omega)
            (fun p q hp hpq hq => hmono p q hp hpq (by omega))
          refine ⟨hr.1, by omega, hr.2.2.1, ?_⟩
          intro q hq1 hq2
          by_cases hqm : q ≤ (lo + hi) / 2
          · exact hr.2.2.2 q hq1 hqm
          · calc i ≤ X ((lo + hi) / 2) := not_lt.mp hx
              _ ≤ X q := hmono _ q (by omega) (by omega) hq2
      · rw [if_neg hlt]
        have heq : lo = hi := by omega
        by_cases hx : X lo < i
        · rw [if_pos hx]
          refine ⟨by omega, by omega, ?_, ?_⟩
          · intro q hq1 hq2
            have : q = lo := by omega
            rw [this]
            exact hx
          · intro q hq1 hq2
            omega
        · rw [if_neg hx]
          refine ⟨le_refl lo, by omega, by omega, ?_⟩
          intro q hq1 hq2
          have : q = lo := by omega
          rw [this]
          exact not_lt.mp hx

/-- Strictly ascending indices grow at least linearly. -/
lemma ascend_gap (pstart pend : ℤ) (X : ℤ → ℤ)
    (hmono : ∀ p q, pstart ≤ p → p < q → q < pend → X p < X q) :
    ∀ (n : ℕ) (p : ℤ), pstart ≤ p → p + n < pend → X p + n ≤ X (p + n) := by
  intro n
  induction n with
  | zero => intro p _ _; simp
  | succ k ih =>
      intro p hp hpn
      have h1 : X p + k ≤ X (p + k) := ih p hp (by push_cast at hpn ⊢; omega)
      have h2 : X (p + k) < X (p + k + 1) := by
        refine hmono (p + k) (p + k + 1) (by omega) (by omega) (by push_cast at hpn; omega)
      push_cast
      have : p + (k + 1 : ℤ) = p + k + 1 := by ring
      rw [this]
      omega

/-- In a dense legal slice (pend - pstart = vlen) the index at offset k is
exactly k. -/
lemma dense_index (pstart pend : ℤ) (X : ℤ → ℤ) (vlen : ℤ)
    (hleg : legalSlice pstart pend X vlen) (hdense : pend - pstart = vlen)
    (k : ℤ) (hk0 : 0 ≤ k) (hk : k < vlen) : X (pstart + k) = k := by
  obtain ⟨hp0, hpe, hasc, hrange⟩ := hleg
  have hlow : (k : ℤ) ≤ X (pstart + k) := by
    have h := ascend_gap pstart pend X hasc k.toNat pstart (le_refl _) (by omega)
    have h0 : 0 ≤ X pstart := (hrange pstart (le_refl _) (by omega)).1
    rw [Int.toNat_of_nonneg hk0] at h
    omega
  have hhigh : X (pstart + k) ≤ k := by
    have h := ascend_gap pstart pend X hasc (vlen - 1 - k).toNat (pstart + k)
      (by omega) (by rw [Int.toNat_of_nonneg (by omega : (0:ℤ) ≤ vlen - 1 - k)]; omega)
    rw [Int.toNat_of_nonneg (by omega : (0:ℤ) ≤ vlen - 1 - k)] at h
    have hend : X (pstart + k + (vlen - 1 - k)) < vlen := by
      have := hrange (pstart + k + (vlen - 1 - k)) (by omega) (by omega)
      exact this.2
    omega
  omega

/-- The per-candidate slice position satisfies the boundary invariants for
every legal slice, provided the candidate is a valid row when the slice is
dense. -/
lemma slicePos_spec (pstart pend : ℤ) (X : ℤ → ℤ) (vlen : ℤ) (i : ℤ)
    (hleg : legalSlice pstart pend X vlen) (hi0 : 0 ≤ i)
    (hiv : pend - pstart = vlen → pend ≠ pstart → i < vlen) :
    sliceInv pstart pend X i (slicePos i X pstart pend vlen) := by
  obtain ⟨hp0, hpe, hasc, hrange⟩ := hleg
  unfold slicePos
  by_cases hz : pend - pstart = 0
  · rw [if_pos hz]
    exact ⟨⟨fun _ => hz, fun _ => rfl⟩, fun hne => absurd hz hne,
      fun h _ => absurd h (by omega), fun h _ => absurd h (by omega)⟩
  · rw [if_neg hz]
    by_cases hd : pend - pstart = vlen
    · rw [if_pos hd]
      have hivlen : i < vlen := hiv hd (by omega)
      have hvpos : 0 < vlen := by omega
      refine ⟨⟨fun h => absurd h (by omega), fun h => absurd h hz⟩,
        fun _ => ⟨by omega, by omega⟩, ?_, ?_⟩
      · intro h1 _
        have : pstart + i - 1 = pstart + (i - 1) := by ring
        rw [this, dense_index pstart pend X vlen ⟨hp0, hpe, hasc, hrange⟩ hd (i - 1)
          (by omega) (by omega)]
        omega
      · intro _ _
        rw [dense_index pstart pend X vlen ⟨hp0, hpe, hasc, hrange⟩ hd i hi0 hivlen]
    · rw [if_neg hd]
      have hfuel : (pend - 1 - pstart).toNat < (pend - 1 - pstart).toNat + 1 := by omega
      have hr := split_search_spec i X ((pend - 1 - pstart).toNat + 1) pstart (pend - 1)
        hfuel (by omega)
        (fun p q hp hpq hq => by
          rcases eq_or_lt_of_le hpq with h | h
          · rw [h]
          · exact le_of_lt (hasc p q hp h (by omega)))
      refine ⟨⟨fun h => absurd h (by omega), fun h => absurd h hz⟩,
        fun _ => ⟨hr.1, by omega⟩, ?_, ?_⟩
      · intro h1 h2
        exact hr.2.2.1 _ (by omega) (by omega)
      · intro h1 h2
        exact hr.2.2.2 _ (le_refl _) (by omega)

/-- The slicer's outer loop preserves the boundary invariants of the
carried candidate index and positions. -/
lemma sliceLoop_inv (Ai Bi : ℤ → ℤ) (pA_start pA_end pB_start pB_end vlen : ℤ)
    (t : ℚ) (hlegA : legalSlice pA_start pA_end Ai vlen)
    (hlegB : legalSlice pB_start pB_end Bi vlen) :
    ∀ (fuel : ℕ) (ileft iright : ℤ) (st : SliceState),
      0 ≤ ileft → iright ≤ vlen - 1 →
      0 ≤ st.i → (st.i = 0 ∨ st.i ≤ vlen - 1) →
      sliceInv pA_start pA_end Ai st.i st.pA →
      sliceInv pB_start pB_end Bi st.i st.pB →
      (0 ≤ (sliceLoop Ai Bi pA_start pA_end pB_start pB_end vlen t fuel ileft iright st).i ∧
        ((sliceLoop Ai Bi pA_start pA_end pB_start pB_end vlen t fuel ileft iright st).i = 0 ∨
          (sliceLoop Ai Bi pA_start pA_end pB_start pB_end vlen t fuel ileft iright st).i ≤ vlen - 1)) ∧
      sliceInv pA_start pA_end Ai
        (sliceLoop Ai Bi pA_start pA_end pB_start pB_end vlen t fuel ileft iright st).i
        (sliceLoop Ai Bi pA_start pA_end pB_start pB_end vlen t fuel ileft iright st).pA ∧
      sliceInv pB_start pB_end Bi
        (sliceLoop Ai Bi pA_start pA_end pB_start pB_end vlen t fuel ileft iright st).i
        (sliceLoop Ai Bi pA_start pA_end pB_start pB_end vlen t fuel ileft iright st).pB := by
  intro fuel
  induction fuel with
  | zero =>
      intro ileft iright st h1 h2 h3 h4 h5 h6
      exact ⟨⟨h3, h4⟩, h5, h6⟩
  | succ f ih =>
      intro ileft iright st h1 h2 h3 h4 h5 h6
      simp only [sliceLoop]
      by_cases hlt : ileft < iright
      · rw [if_pos hlt]
        have hm1 : 0 ≤ (ileft + iright) / 2 := by omega
        have hm2 : (ileft + iright) / 2 ≤ vlen - 1 := by omega
        have hpA := slicePos_spec pA_start pA_end Ai vlen ((ileft + iright) / 2)
          hlegA hm1 (fun hd hne => by omega)
        have hpB := slicePos_spec pB_start pB_end Bi vlen ((ileft + iright) / 2)
          hlegB hm1 (fun hd hne => by omega)
        split_ifs
        all_goals
          first
            | exact ih ileft ((ileft + iright) / 2) _ h1 (by omega) hm1 (Or.inr hm2) hpA hpB
            | exact ih ((ileft + iright) / 2 + 1) iright _ (by omega) h2 hm1 (Or.inr hm2) hpA hpB
            | exact ⟨⟨hm1, Or.inr hm2⟩, hpA, hpB⟩
      · rw [if_neg hlt]
        exact ⟨⟨h3, h4⟩, h5, h6⟩

/-- The carried positions at the start of the loop satisfy the invariants
for the initial candidate i = 0. -/
lemma sliceInv_init (pstart pend : ℤ) (X : ℤ → ℤ) (vlen : ℤ)
    (hleg : legalSlice pstart pend X vlen) :
    sliceInv pstart pend X 0 (if pend - pstart = 0 then -1 else pstart) := by
  obtain ⟨hp0, hpe, hasc, hrange⟩ := hleg
  by_cases hz : pend - pstart = 0
  · rw [if_pos hz]
    exact ⟨⟨fun _ => hz, fun _ => rfl⟩, fun hne => absurd hz hne,
      fun h _ => absurd h (by omega), fun h _ => absurd h (by omega)⟩
  · rw [if_neg hz]
    refine ⟨⟨fun h => absurd h (by omega), fun h => absurd h hz⟩,
      fun _ => ⟨le_refl _, hpe⟩, fun h _ => absurd h (by omega), ?_⟩
    intro _ h2
    exact (hrange pstart (le_refl _) h2).1

/-- Claim C4: for every legal input — both slices empty, one empty, dense
columns, or sparse columns with strictly ascending indices — the slicer
returns 0 ≤ i ≤ vlen, and for each of the three slices the returned
position is -1 exactly when the slice is empty, lies in
[p_start, p_end] otherwise, and satisfies Xi[p-1] < i and i ≤ Xi[p] at the
strict-interior boundaries. -/
theorem GB_slice_vector_invariants (pM_start pM_end : ℤ) (Mi : ℤ → ℤ)
    (pA_start pA_end : ℤ) (Ai : ℤ → ℤ) (pB_start pB_end : ℤ) (Bi : ℤ → ℤ)
    (vlen : ℤ) (t : ℚ) (hv : 0 ≤ vlen)
    (hlegM : legalSlice pM_start pM_end Mi vlen)
    (hlegA : legalSlice pA_start pA_end Ai vlen)
    (hlegB : legalSlice pB_start pB_end Bi vlen) :
    (0 ≤ (GB_slice_vector pM_start pM_end Mi pA_start pA_end Ai pB_start pB_end Bi vlen t).i ∧
      (GB_slice_vector pM_start pM_end Mi pA_start pA_end Ai pB_start pB_end Bi vlen t).i ≤ vlen) ∧
    sliceInv pM_start pM_end Mi
      (GB_slice_vector pM_start pM_end Mi pA_start pA_end Ai pB_start pB_end Bi vlen t).i
      (GB_slice_vector pM_start pM_end Mi pA_start pA_end Ai pB_start pB_end Bi vlen t).pM ∧
    sliceInv pA_start pA_end Ai
      (GB_slice_vector pM_start pM_end Mi pA_start pA_end Ai pB_start pB_end Bi vlen t).i
      (GB_slice_vector pM_start pM_end Mi pA_start pA_end Ai pB_start pB_end Bi vlen t).pA ∧
    sliceInv pB_start pB_end Bi
      (GB_slice_vector pM_start pM_end Mi pA_start pA_end Ai pB_start pB_end Bi vlen t).i
      (GB_slice_vector pM_start pM_end Mi pA_start pA_end Ai pB_start pB_end Bi vlen t).pB := by
  have hloop := sliceLoop_inv Ai Bi pA_start pA_end pB_start pB_end vlen t hlegA hlegB
    (vlen.toNat + 1) 0 (vlen - 1)
    ⟨0, if pA_end - pA_start = 0 then -1 else pA_start,
      if pB_end - pB_start = 0 then -1 else pB_start, 0⟩
    (le_refl 0) (le_refl _) (le_refl 0) (Or.inl rfl)
    (sliceInv_init pA_start pA_end Ai vlen hlegA)
    (sliceInv_init pB_start pB_end Bi vlen hlegB)
  set st := sliceLoop Ai Bi pA_start pA_end pB_start pB_end vlen t
    (vlen.toNat + 1) 0 (vlen - 1)
    ⟨0, if pA_end - pA_start = 0 then -1 else pA_start,
      if pB_end - pB_start = 0 then -1 else pB_start, 0⟩ with hst
  have hM := slicePos_spec pM_start pM_end Mi vlen st.i hlegM hloop.1.1
    (fun hd hne => by
      rcases hloop.1.2 with h0 | hle
      · rw [h0]
        have := hlegM.2.1
        omega
      · omega)
  have hr : GB_slice_vector pM_start pM_end Mi pA_start pA_end Ai pB_start pB_end Bi vlen t =
      ⟨st.i, slicePos st.i Mi pM_start pM_end vlen, st.pA, st.pB, st.iters⟩ := by
    simp only [GB_slice_vector]
  rw [hr]
  dsimp only
  exact ⟨⟨hloop.1.1, by rcases hloop.1.2 with h | h <;> omega⟩, hM, hloop.2.1, hloop.2.2⟩

/-- Claim C4 witness: a dense mask slice, a sparse slice, and an empty
slice over vlen = 4 with target work 3. -/
theorem GB_slice_vector_invariants_witness :
    ((0 : ℤ) ≤ 4 ∧ legalSlice 0 4 (fun p => p) 4 ∧ legalSlice 0 2 (fun p => p) 4 ∧
      legalSlice 0 0 (fun _ => (0 : ℤ)) 4) ∧
    ((0 ≤ (GB_slice_vector 0 4 (fun p => p) 0 2 (fun p => p) 0 0 (fun _ => 0) 4 3).i ∧
        (GB_slice_vector 0 4 (fun p => p) 0 2 (fun p => p) 0 0 (fun _ => 0) 4 3).i ≤ 4) ∧
      sliceInv 0 4 (fun p => p)
        (GB_slice_vector 0 4 (fun p => p) 0 2 (fun p => p) 0 0 (fun _ => 0) 4 3).i
        (GB_slice_vector 0 4 (fun p => p) 0 2 (fun p => p) 0 0 (fun _ => 0) 4 3).pM ∧
      sliceInv 0 2 (fun p => p)
        (GB_slice_vector 0 4 (fun p => p) 0 2 (fun p => p) 0 0 (fun _ => 0) 4 3).i
        (GB_slice_vector 0 4 (fun p => p) 0 2 (fun p => p) 0 0 (fun _ => 0) 4 3).pA ∧
      sliceInv 0 0 (fun _ => (0 : ℤ))
        (GB_slice_vector 0 4 (fun p => p) 0 2 (fun p => p) 0 0 (fun _ => 0) 4 3).i
        (GB_slice_vector 0 4 (fun p => p) 0 2 (fun p => p) 0 0 (fun _ => 0) 4 3).pB) := by
  have hM : legalSlice 0 4 (fun p => p) 4 :=
    ⟨le_refl 0, by norm_num, fun p q _ h _ => h, fun p hp hpe => ⟨hp, hpe⟩⟩
  have hA : legalSlice 0 2 (fun p => p) 4 :=
    ⟨le_refl 0, by norm_num, fun p q _ h _ => h,
      fun p hp hpe => ⟨hp, lt_of_lt_of_le hpe (by norm_num)⟩⟩
  have hB : legalSlice 0 0 (fun _ => (0 : ℤ)) 4 :=
    ⟨le_refl 0, le_refl 0, fun p q hp hpq hq => absurd hq (by omega),
      fun p hp hpe => absurd hpe (by omega)⟩
  exact ⟨⟨by norm_num, hM, hA, hB⟩,
    GB_slice_vector_invariants 0 4 (fun p => p) 0 2 (fun p => p) 0 0 (fun _ => 0) 4 3
      (by norm_num) hM hA hB⟩

/-- In the binary-search case (non-empty, non-dense), the slice position
is the first position in the slice whose index is ≥ i. -/
lemma slicePos_search (pstart pend : ℤ) (X : ℤ → ℤ) (vlen : ℤ) (i : ℤ)
    (hleg : legalSlice pstart pend X vlen)
    (hne : pend - pstart ≠ 0) (hnd : pend - pstart ≠ vlen) :
    pstart ≤ slicePos i X pstart pend vlen ∧
      slicePos i X pstart pend vlen ≤ pend ∧
      (∀ q, pstart ≤ q → q < slicePos i X pstart pend vlen → X q < i) ∧
      (∀ q, slicePos i X pstart pend vlen ≤ q → q < pend → i ≤ X q) := by
  obtain ⟨hp0, hpe, hasc, hrange⟩ := hleg
  unfold slicePos
  rw [if_neg hne, if_neg hnd]
  have hr := split_search_spec i X ((pend - 1 - pstart).toNat + 1) pstart (pend - 1)
    (by omega) (by omega)
    (fun p q hp hpq hq => by
      rcases eq_or_lt_of_le hpq with h | h
      · rw [h]
      · exact le_of_lt (hasc p q hp h (by omega)))
  exact ⟨hr.1, by omega, hr.2.2.1, fun q h1 h2 => hr.2.2.2 q h1 (by omega)⟩

/-- The slice position is monotone in the candidate index. -/
lemma slicePos_mono (pstart pend : ℤ) (X : ℤ → ℤ) (vlen : ℤ)
    (hleg : legalSlice pstart pend X vlen)
    (hne : pend - pstart ≠ 0) (hnd : pend - pstart ≠ vlen)
    (i j : ℤ) (hij : i ≤ j) :
    slicePos i X pstart pend vlen ≤ slicePos j X pstart pend vlen := by
  by_contra hc
  push_neg at hc
  have hi := slicePos_search pstart pend X vlen i hleg hne hnd
  have hj := slicePos_search pstart pend X vlen j hleg hne hnd
  have h1 : X (slicePos j X pstart pend vlen) < i :=
    hi.2.2.1 _ hj.1 hc
  have h2 : j ≤ X (slicePos j X pstart pend vlen) :=
    hj.2.2.2 _ (le_refl _) (by omega)
  omega

/-- Advancing the candidate index by one advances the slice position by at
most one (indices are strictly ascending, so at most one entry equals i). -/
lemma slicePos_step (pstart pend : ℤ) (X : ℤ → ℤ) (vlen : ℤ)
    (hleg : legalSlice pstart pend X vlen)
    (hne : pend - pstart ≠ 0) (hnd : pend - pstart ≠ vlen) (i : ℤ) :
    slicePos (i + 1) X pstart pend vlen ≤ slicePos i X pstart pend vlen + 1 := by
  by_contra hc
  push_neg at hc
  have hi := slicePos_search pstart pend X vlen i hleg hne hnd
  have hj := slicePos_search pstart pend X vlen (i + 1) hleg hne hnd
  have hq1 : X (slicePos i X pstart pend vlen) < i + 1 :=
    hj.2.2.1 _ hi.1 (by omega)
  have hq2 : X (slicePos i X pstart pend vlen + 1) < i + 1 :=
    hj.2.2.1 _ (by omega) (by omega)
  have hq3 : i ≤ X (slicePos i X pstart pend vlen) :=
    hi.2.2.2 _ (le_refl _) (by omega)
  have hq4 : X (slicePos i X pstart pend vlen) < X (slicePos i X pstart pend vlen + 1) :=
    hleg.2.2.1 _ _ hi.1 (by omega) (by omega)
  omega

/-- At candidate 0 the slice position is the start of the slice. -/
lemma slicePos_zero (pstart pend : ℤ) (X : ℤ → ℤ) (vlen : ℤ)
    (hleg : legalSlice pstart pend X vlen)
    (hne : pend - pstart ≠ 0) (hnd : pend - pstart ≠ vlen) :
    slicePos 0 X pstart pend vlen = pstart := by
  have hi := slicePos_search pstart pend X vlen 0 hleg hne hnd
  by_contra hc
  have h1 : X pstart < 0 := hi.2.2.1 pstart (le_refl _) (by omega)
  have h2 : 0 ≤ X pstart := (hleg.2.2.2 pstart (le_refl _) (by omega)).1
  omega

/-- At candidate vlen - 1 the slice position is within one of the end. -/
lemma slicePos_top (pstart pend : ℤ) (X : ℤ → ℤ) (vlen : ℤ)
    (hleg : legalSlice pstart pend X vlen)
    (hne : pend - pstart ≠ 0) (hnd : pend - pstart ≠ vlen) :
    pend - 1 ≤ slicePos (vlen - 1) X pstart pend vlen := by
  by_contra hc
  push_neg at hc
  have hi := slicePos_search pstart pend X vlen (vlen - 1) hleg hne hnd
  have h1 : vlen - 1 ≤ X (slicePos (vlen - 1) X pstart pend vlen) :=
    hi.2.2.2 _ (le_refl _) (by omega)
  have h2 : X (slicePos (vlen - 1) X pstart pend vlen) < X (pend - 1) :=
    hleg.2.2.1 _ _ hi.1 (by omega) (by omega)
  have h3 : X (pend - 1) < vlen := (hleg.2.2.2 (pend - 1) (by omega) (by omega)).2
  omega

/-- At target work 50000 the work-too-low test is the integer comparison
work < 49995 (0.9999 · 50000 = 49995 exactly). -/
lemma tooLow50000 (w : ℤ) : workTooLow w 50000 ↔ w < 49995 := by
  rw [workTooLow_iff]
  simp only [Rat.den_ofNat, Rat.num_ofNat, Nat.cast_one]
  omega

/-- At target work 50000 the work-too-high test is the integer comparison
work > 50005 (1.0001 · 50000 = 50005 exactly). -/
lemma tooHigh50000 (w : ℤ) : workTooHigh w 50000 ↔ 50005 < w := by
  rw [workTooHigh_iff]
  simp only [Rat.den_ofNat, Rat.num_ofNat, Nat.cast_one]
  omega

/-- The outer loop of the slicer, run on two 10^5-entry slices of vector
length 10^6 with target 50000, lands in the acceptance band and uses at
most k iterations when the search interval is shorter than 2^k, provided
the interval brackets the (nonempty, width-5) band of balanced split
points. -/
lemma sliceLoop_balance (Ai Bi : ℤ → ℤ) (pA_start pA_end pB_start pB_end : ℤ)
    (hAn : pA_end - pA_start = 100000) (hBn : pB_end - pB_start = 100000)
    (w : ℤ → ℤ)
    (hw : ∀ j, w j = (pA_end - slicePos j Ai pA_start pA_end 1000000) +
      (pB_end - slicePos j Bi pB_start pB_end 1000000))
    (hanti : ∀ i j : ℤ, i ≤ j → w j ≤ w i)
    (bmin : ℤ)
    (hband : ∀ j : ℤ, bmin ≤ j → j ≤ bmin + 4 → 49995 ≤ w j ∧ w j ≤ 50005)
    (hlow : ∀ j : ℤ, 0 ≤ j → j < bmin → 50005 < w j) :
    ∀ (k fuel : ℕ) (ileft iright : ℤ) (st : SliceState), k ≤ fuel →
      0 ≤ ileft → ileft ≤ bmin → bmin + 4 ≤ iright →
      iright - ileft < 2 ^ k →
      49995 ≤ (pA_end -
          (sliceLoop Ai Bi pA_start pA_end pB_start pB_end 1000000 50000
            fuel ileft iright st).pA) +
        (pB_end -
          (sliceLoop Ai Bi pA_start pA_end pB_start pB_end 1000000 50000
            fuel ileft iright st).pB) ∧
      (pA_end -
          (sliceLoop Ai Bi pA_start pA_end pB_start pB_end 1000000 50000
            fuel ileft iright st).pA) +
        (pB_end -
          (sliceLoop Ai Bi pA_start pA_end pB_start pB_end 1000000 50000
            fuel ileft iright st).pB) ≤ 50005 ∧
      (sliceLoop Ai Bi pA_start pA_end pB_start pB_end 1000000 50000
        fuel ileft iright st).iters ≤ st.iters + k := by
  intro k
  induction k with
  | zero =>
      intro fuel ileft iright st hkf h1 h2 h3 h5
      exact absurd h5 (by omega)
  | succ k ih =>
      intro fuel ileft iright st hkf h1 h2 h3 h5
      cases fuel with
      | zero => omega
      | succ f =>
          have hlt : ileft < iright := by omega
          have hA0 : ¬(pA_end - pA_start = 0) := by omega
          have hB0 : ¬(pB_end - pB_start = 0) := by omega
          have hpow : (2 : ℤ) ^ (k + 1) = 2 * 2 ^ k := by ring
          rw [hpow] at h5
          simp only [sliceLoop]
          rw [if_pos hlt, if_neg hA0, if_neg hB0]
          have hwm : pA_end - slicePos ((ileft + iright) / 2) Ai pA_start pA_end 1000000 +
              (pB_end - slicePos ((ileft + iright) / 2) Bi pB_start pB_end 1000000) =
              w ((ileft + iright) / 2) := (hw _).symm
          rw [hwm]
          by_cases hw1 : workTooLow (w ((ileft + iright) / 2)) 50000
          · rw [if_pos hw1]
            have hlm : w ((ileft + iright) / 2) < 49995 := (tooLow50000 _).mp hw1
            have hgt : bmin + 4 < (ileft + iright) / 2 := by
              by_contra hc
              push_neg at hc
              rcases lt_or_le ((ileft + iright) / 2) bmin with hlt2 | hge
              · exact absurd (hlow _ (by omega) hlt2) (by omega)
              · exact absurd ((hband _ hge hc).1) (by omega)
            have H := ih f ileft ((ileft + iright) / 2)
              ⟨(ileft + iright) / 2,
                slicePos ((ileft + iright) / 2) Ai pA_start pA_end 1000000,
                slicePos ((ileft + iright) / 2) Bi pB_start pB_end 1000000,
                st.iters + 1⟩
              (by omega) h1 h2 (by omega) (by omega)
            exact ⟨H.1, H.2.1, le_trans H.2.2 (by dsimp only; omega)⟩
          · rw [if_neg hw1]
            by_cases hw2 : workTooHigh (w ((ileft + iright) / 2)) 50000
            · rw [if_pos hw2]
              have hhm : 50005 < w ((ileft + iright) / 2) := (tooHigh50000 _).mp hw2
              have hltb : (ileft + iright) / 2 < bmin := by
                by_contra hc
                push_neg at hc
                have h50 := (hband bmin (le_refl _) (by omega)).2
                have := hanti bmin _ hc
                omega
              have H := ih f ((ileft + iright) / 2 + 1) iright
                ⟨(ileft + iright) / 2,
                  slicePos ((ileft + iright) / 2) Ai pA_start pA_end 1000000,
                  slicePos ((ileft + iright) / 2) Bi pB_start pB_end 1000000,
                  st.iters + 1⟩
                (by omega) (by omega) (by omega) h3 (by omega)
              exact ⟨H.1, H.2.1, le_trans H.2.2 (by dsimp only; omega)⟩
            · rw [if_neg hw2]
              have hl : ¬(w ((ileft + iright) / 2) < 49995) :=
                fun hc => hw1 ((tooLow50000 _).mpr hc)
              have hh : ¬(50005 < w ((ileft + iright) / 2)) :=
                fun hc => hw2 ((tooHigh50000 _).mpr hc)
              dsimp only
              rw [← hw ((ileft + iright) / 2)] at *
              exact ⟨by omega, by omega, by omega⟩

/-- Claim C5: for every pair of paired column slices of vector length 10^6
with strictly ascending row indices and 10^5 entries each, GB_slice_vector
with target work 50000 returns positions whose remaining work lies in
[49995, 50005], and its outer binary-search loop executes at most
20 = ceil(log2 10^6) iterations. -/
theorem GB_slice_vector_balance (pA_start pA_end pB_start pB_end : ℤ) (Ai Bi : ℤ → ℤ)
    (hlegA : legalSlice pA_start pA_end Ai 1000000)
    (hlegB : legalSlice pB_start pB_end Bi 1000000)
    (hAn : pA_end - pA_start = 100000) (hBn : pB_end - pB_start = 100000) :
    49995 ≤ (pA_end - (GB_slice_vector 0 0 (fun _ => 0) pA_start pA_end Ai
        pB_start pB_end Bi 1000000 50000).pA) +
      (pB_end - (GB_slice_vector 0 0 (fun _ => 0) pA_start pA_end Ai
        pB_start pB_end Bi 1000000 50000).pB) ∧
    (pA_end - (GB_slice_vector 0 0 (fun _ => 0) pA_start pA_end Ai
        pB_start pB_end Bi 1000000 50000).pA) +
      (pB_end - (GB_slice_vector 0 0 (fun _ => 0) pA_start pA_end Ai
        pB_start pB_end Bi 1000000 50000).pB) ≤ 50005 ∧
    (GB_slice_vector 0 0 (fun _ => 0) pA_start pA_end Ai
      pB_start pB_end Bi 1000000 50000).iters ≤ 20 := by
  have hneA : pA_end - pA_start ≠ 0 := by omega
  have hndA : pA_end - pA_start ≠ 1000000 := by omega
  have hneB : pB_end - pB_start ≠ 0 := by omega
  have hndB : pB_end - pB_start ≠ 1000000 := by omega
  have hmA := fun (i j : ℤ) (hij : i ≤ j) =>
    slicePos_mono pA_start pA_end Ai 1000000 hlegA hneA hndA i j hij
  have hmB := fun (i j : ℤ) (hij : i ≤ j) =>
    slicePos_mono pB_start pB_end Bi 1000000 hlegB hneB hndB i j hij
  have hsA := fun (i : ℤ) => slicePos_step pA_start pA_end Ai 1000000 hlegA hneA hndA i
  have hsB := fun (i : ℤ) => slicePos_step pB_start pB_end Bi 1000000 hlegB hneB hndB i
  have hz : (pA_end - slicePos 0 Ai pA_start pA_end 1000000) +
      (pB_end - slicePos 0 Bi pB_start pB_end 1000000) = 200000 := by
    rw [slicePos_zero pA_start pA_end Ai 1000000 hlegA hneA hndA,
      slicePos_zero pB_start pB_end Bi 1000000 hlegB hneB hndB]
    omega
  have htopA := slicePos_top pA_start pA_end Ai 1000000 hlegA hneA hndA
  have htopB := slicePos_top pB_start pB_end Bi 1000000 hlegB hneB hndB
  have h9 : (1000000 - 1 : ℤ) = 999999 := by norm_num
  rw [h9] at htopA htopB
  have htop : (pA_end - slicePos 999999 Ai pA_start pA_end 1000000) +
      (pB_end - slicePos 999999 Bi pB_start pB_end 1000000) ≤ 2 := by omega
  have hstep : ∀ j : ℤ,
      ((pA_end - slicePos j Ai pA_start pA_end 1000000) +
        (pB_end - slicePos j Bi pB_start pB_end 1000000)) - 2 ≤
      (pA_end - slicePos (j + 1) Ai pA_start pA_end 1000000) +
        (pB_end - slicePos (j + 1) Bi pB_start pB_end 1000000) := by
    intro j
    have h1 := hsA j
    have h2 := hsB j
    omega
  have hanti : ∀ i j : ℤ, i ≤ j →
      (pA_end - slicePos j Ai pA_start pA_end 1000000) +
        (pB_end - slicePos j Bi pB_start pB_end 1000000) ≤
      (pA_end - slicePos i Ai pA_start pA_end 1000000) +
        (pB_end - slicePos i Bi pB_start pB_end 1000000) := by
    intro i j hij
    have h1 := hmA i j hij
    have h2 := hmB i j hij
    omega
  have hiter : ∀ (n : ℕ) (j : ℤ),
      ((pA_end - slicePos j Ai pA_start pA_end 1000000) +
        (pB_end - slicePos j Bi pB_start pB_end 1000000)) - 2 * (n : ℤ) ≤
      (pA_end - slicePos (j + (n : ℤ)) Ai pA_start pA_end 1000000) +
        (pB_end - slicePos (j + (n : ℤ)) Bi pB_start pB_end 1000000) := by
    intro n
    induction n with
    | zero => intro j; simp
    | succ m ihm =>
        intro j
        have h1 := ihm j
        have h2 := hstep (j + (m : ℤ))
        have hc1 : ((m + 1 : ℕ) : ℤ) = (m : ℤ) + 1 := by push_cast; ring
        rw [hc1]
        have hc2 : j + ((m : ℤ) + 1) = j + (m : ℤ) + 1 := by ring
        rw [hc2]
        omega
  have hex : ∃ n : ℕ, (pA_end - slicePos (n : ℤ) Ai pA_start pA_end 1000000) +
      (pB_end - slicePos (n : ℤ) Bi pB_start pB_end 1000000) ≤ 50005 := by
    refine ⟨999999, ?_⟩
    have h99 : ((999999 : ℕ) : ℤ) = 999999 := by norm_num
    rw [h99]
    exact le_trans htop (by norm_num)
  have hfind := Nat.find_spec hex
  have hfind_min := fun (m : ℕ) (hm : m < Nat.find hex) => Nat.find_min hex hm
  have hb1 : 1 ≤ Nat.find hex := by
    by_contra hc
    push_neg at hc
    have h0 : Nat.find hex = 0 := by omega
    rw [h0] at hfind
    push_cast at hfind
    omega
  have hlow : ∀ j : ℤ, 0 ≤ j → j < (Nat.find hex : ℤ) →
      50005 < (pA_end - slicePos j Ai pA_start pA_end 1000000) +
        (pB_end - slicePos j Bi pB_start pB_end 1000000) := by
    intro j hj0 hjb
    have hmlt : j.toNat < Nat.find hex := by omega
    have h := hfind_min j.toNat hmlt
    rw [Int.toNat_of_nonneg hj0] at h
    omega
  have hb50004 : 50004 ≤ (pA_end - slicePos (Nat.find hex : ℤ) Ai pA_start pA_end 1000000) +
      (pB_end - slicePos (Nat.find hex : ℤ) Bi pB_start pB_end 1000000) := by
    have h1 := hlow ((Nat.find hex : ℤ) - 1) (by omega) (by omega)
    have h2 := hstep ((Nat.find hex : ℤ) - 1)
    have h3 : (Nat.find hex : ℤ) - 1 + 1 = (Nat.find hex : ℤ) := by ring
    rw [h3] at h2
    omega
  have hband : ∀ j : ℤ, (Nat.find hex : ℤ) ≤ j → j ≤ (Nat.find hex : ℤ) + 4 →
      49995 ≤ (pA_end - slicePos j Ai pA_start pA_end 1000000) +
        (pB_end - slicePos j Bi pB_start pB_end 1000000) ∧
      (pA_end - slicePos j Ai pA_start pA_end 1000000) +
        (pB_end - slicePos j Bi pB_start pB_end 1000000) ≤ 50005 := by
    intro j h1 h2
    constructor
    · have h3 := hiter (j - (Nat.find hex : ℤ)).toNat (Nat.find hex : ℤ)
      rw [Int.toNat_of_nonneg (by omega)] at h3
      have h4 : (Nat.find hex : ℤ) + (j - (Nat.find hex : ℤ)) = j := by ring
      rw [h4] at h3
      omega
    · exact le_trans (hanti _ j h1) hfind
  have hbhigh : (Nat.find hex : ℤ) + 4 ≤ 999999 := by
    have hble : Nat.find hex ≤ 999999 := Nat.find_le (by
      have h99 : ((999999 : ℕ) : ℤ) = 999999 := by norm_num
      rw [h99]
      exact le_trans htop (by norm_num))
    by_contra hc
    push_neg at hc
    have h3 := hiter (999999 - (Nat.find hex : ℤ)).toNat (Nat.find hex : ℤ)
    rw [Int.toNat_of_nonneg (by omega)] at h3
    have h4 : (Nat.find hex : ℤ) + (999999 - (Nat.find hex : ℤ)) = 999999 := by ring
    rw [h4] at h3
    omega
  have H := sliceLoop_balance Ai Bi pA_start pA_end pB_start pB_end hAn hBn
    (fun j => (pA_end - slicePos j Ai pA_start pA_end 1000000) +
      (pB_end - slicePos j Bi pB_start pB_end 1000000))
    (fun j => rfl) hanti (Nat.find hex : ℤ) hband hlow
    20 ((1000000 : ℤ).toNat + 1) 0 (1000000 - 1)
    ⟨0, if pA_end - pA_start = 0 then -1 else pA_start,
      if pB_end - pB_start = 0 then -1 else pB_start, 0⟩
    (by decide) (le_refl 0) (by omega) (by omega) (by norm_num)
  simp only [GB_slice_vector]
  exact ⟨H.1, H.2.1, le_trans H.2.2 (by dsimp only; omega)⟩

/-- Claim C5 witness: two concrete slices with row indices 0..99999 in
columns of length 10^6. -/
theorem GB_slice_vector_balance_witness :
    (legalSlice 0 100000 (fun p => p) 1000000 ∧
      (100000 : ℤ) - 0 = 100000) ∧
    (49995 ≤ ((100000 : ℤ) - (GB_slice_vector 0 0 (fun _ => 0) 0 100000 (fun p => p)
        0 100000 (fun p => p) 1000000 50000).pA) +
      ((100000 : ℤ) - (GB_slice_vector 0 0 (fun _ => 0) 0 100000 (fun p => p)
        0 100000 (fun p => p) 1000000 50000).pB) ∧
      ((100000 : ℤ) - (GB_slice_vector 0 0 (fun _ => 0) 0 100000 (fun p => p)
        0 100000 (fun p => p) 1000000 50000).pA) +
      ((100000 : ℤ) - (GB_slice_vector 0 0 (fun _ => 0) 0 100000 (fun p => p)
        0 100000 (fun p => p) 1000000 50000).pB) ≤ 50005 ∧
      (GB_slice_vector 0 0 (fun _ => 0) 0 100000 (fun p => p)
        0 100000 (fun p => p) 1000000 50000).iters ≤ 20) := by
  have hleg : legalSlice 0 100000 (fun p => p) 1000000 :=
    ⟨le_refl 0, by norm_num, fun p q _ h _ => h,
      fun p hp hpe => ⟨hp, lt_of_lt_of_le hpe (by norm_num)⟩⟩
  exact ⟨⟨hleg, by norm_num⟩,
    GB_slice_vector_balance 0 100000 0 100000 (fun p => p) (fun p => p)
      hleg hleg (by norm_num) (by norm_num)⟩
